import Mathlib

/-!
Verification of the `aitask` repository: a shallow embedding of the
dispatcher (`src/aiTask.js`), the Gemini fallback controller
(`src/utils/LLMAPI/gemini.js`), the message builder
(`src/utils/LLMAPI/messages.js`), the Ollama adapter
(`src/utils/LLMAPI/ollama.js`) and the schema compiler
(`src/utils/createJSONSchema.js`), together with theorems settling the
spec's claims about them.

JavaScript values are modelled by the inductive `JsVal`; exceptions by
`Except`; the mutable `flat-cache` store and the module-level rate-limit
cursor by explicit state threading; backend wire calls by oracle
functions supplied as parameters.  Recursive functions whose JavaScript
originals can diverge (unbounded retry) take a fuel argument and return
`none` when the fuel runs out.
-/

namespace AiTask

/-- JavaScript JSON-like runtime values: `null`, `undefined`, booleans,
numbers (restricted to integers; no claim exercises non-integral
numbers), strings, arrays and objects (ordered key/value lists). -/
inductive JsVal where
  | null : JsVal
  | undef : JsVal
  | bool : Bool → JsVal
  | num : Int → JsVal
  | str : String → JsVal
  | arr : List JsVal → JsVal
  | obj : List (String × JsVal) → JsVal

/-- JavaScript truthiness: `null`, `undefined`, `false`, `0` and `""` are
falsy; every array and object is truthy. -/
def jsTruthy : JsVal → Bool
  | .null => false
  | .undef => false
  | .bool b => b
  | .num n => n != 0
  | .str s => s != ""
  | .arr _ => true
  | .obj _ => true

/-- Discriminator for the JavaScript strict comparison `=== null`
(`undefined !== null`). -/
def JsVal.isNull : JsVal → Bool
  | .null => true
  | _ => false

/-- First-match lookup of an object field (JavaScript objects have unique
keys, so first-match equals the JavaScript property read). -/
def lookupField : List (String × JsVal) → String → Option JsVal
  | [], _ => none
  | (k, v) :: rest, key => if k = key then some v else lookupField rest key

/-- Escape one character for a JSON string literal (quote, backslash and
newline; other control characters do not occur in the inputs considered). -/
def escapeJsonChar (c : Char) : String :=
  if c = '"' then "\\\""
  else if c = '\\' then "\\\\"
  else if c = '\n' then "\\n"
  else String.singleton c

/-- Escape a string for a JSON string literal. -/
def escapeJson (s : String) : String :=
  String.join (s.toList.map escapeJsonChar)

/-- Does the character list start with the given needle? -/
def charsStartsWith : List Char → List Char → Bool
  | _, [] => true
  | [], _ :: _ => false
  | h :: hs, n :: ns => h = n && charsStartsWith hs ns

/-- Substring containment on character lists. -/
def charsContainsSub : List Char → List Char → Bool
  | [], ns => ns.isEmpty
  | h :: hs, ns => charsStartsWith (h :: hs) ns || charsContainsSub hs ns

/-- Model of `String.prototype.includes`. -/
def strIncludes (s sub : String) : Bool :=
  charsContainsSub s.toList sub.toList

/-- Model of `String.prototype.includes` with a one-character needle. -/
def strContainsChar (s : String) (c : Char) : Bool :=
  s.toList.contains c

/-- Model of `String.prototype.startsWith`. -/
def strStartsWith (s pre : String) : Bool :=
  charsStartsWith s.toList pre.toList

/-- Strip a needle prefix, returning the rest. -/
def charsStripNeedle : List Char → List Char → Option (List Char)
  | hs, [] => some hs
  | [], _ :: _ => none
  | h :: hs, n :: ns => if h = n then charsStripNeedle hs ns else none

/-- Replace the first occurrence of a needle. -/
def charsReplaceFirst : List Char → List Char → List Char → List Char
  | [], _, _ => []
  | h :: hs, ns, rep =>
    match charsStripNeedle (h :: hs) ns with
    | some rest => rep ++ rest
    | none => h :: charsReplaceFirst hs ns rep

/-- Model of `String.prototype.replace` with a plain-string pattern
(replaces the first occurrence only). -/
def strReplaceFirst (s sub rep : String) : String :=
  String.mk (charsReplaceFirst s.toList sub.toList rep.toList)

/-- JavaScript whitespace for `String.prototype.trim`. -/
def wsCharB (c : Char) : Bool :=
  c = ' ' || c = '\n' || c = '\t' || c = '\r'

/-- Trim whitespace from both ends of a character list. -/
def trimChars (cs : List Char) : List Char :=
  ((cs.dropWhile wsCharB).reverse.dropWhile wsCharB).reverse

/-- Model of `String.prototype.trim`. -/
def jsTrim (s : String) : String := String.mk (trimChars s.toList)

/-- Split a character list on a separator (every occurrence, keeping
empty parts — `String.prototype.split` with a one-character pattern). -/
def splitCharsOn (sep : Char) : List Char → List (List Char)
  | [] => [[]]
  | c :: cs =>
    if c = sep then [] :: splitCharsOn sep cs
    else
      match splitCharsOn sep cs with
      | [] => [[c]]
      | p :: ps => (c :: p) :: ps

/-- Model of `String.prototype.split` with a one-character pattern. -/
def jsSplit (s : String) (sep : Char) : List String :=
  (splitCharsOn sep s.toList).map String.mk

/-- Model of `String.prototype.toLowerCase`. -/
def jsToLower (s : String) : String :=
  String.mk (s.toList.map Char.toLower)

mutual

/-- Model of `JSON.stringify` (compact form, no indent): `undefined`
serializes to nothing (`none`), to `"null"` inside arrays, and its key is
dropped inside objects — exactly the JavaScript behavior. -/
def stringifyVal : JsVal → Option String
  | .null => some "null"
  | .undef => none
  | .bool b => some (if b then "true" else "false")
  | .num n => some (toString n)
  | .str s => some ("\"" ++ escapeJson s ++ "\"")
  | .arr xs => some ("[" ++ String.intercalate "," (stringifyArr xs) ++ "]")
  | .obj fs => some ("\x7b" ++ String.intercalate "," (stringifyObj fs) ++ "\x7d")

/-- Array elements of `JSON.stringify`. -/
def stringifyArr : List JsVal → List String
  | [] => []
  | x :: xs =>
    (match stringifyVal x with
     | some s => s
     | none => "null") :: stringifyArr xs

/-- Object members of `JSON.stringify` (keys with `undefined` values are
dropped, as are function-valued keys, which are modelled out of `JsVal`). -/
def stringifyObj : List (String × JsVal) → List String
  | [] => []
  | (k, v) :: fs =>
    match stringifyVal v with
    | some s => ("\"" ++ escapeJson k ++ "\":" ++ s) :: stringifyObj fs
    | none => stringifyObj fs

end

/-- The `flat-cache` store used by the dispatcher: an association list
from fingerprint strings to payloads (`cache.save` only persists to disk
and does not change the in-memory contents, so it needs no model). -/
abbrev Cache := List (String × JsVal)

/-- Model of `cache.get`. -/
def cacheGet : Cache → String → Option JsVal
  | [], _ => none
  | (k, v) :: rest, key => if k = key then some v else cacheGet rest key

/-- Model of `cache.set`: replace an existing entry or append a new one
(last writer wins). -/
def cacheSet : Cache → String → JsVal → Cache
  | [], key, v => [(key, v)]
  | (k, v') :: rest, key, v =>
    if k = key then (k, v) :: rest else (k, v') :: cacheSet rest key v

/-- The dispatcher's `model` field: absent (`undefined`), a scalar model
identifier, or an explicit candidate array. -/
inductive MModel where
  | undef : MModel
  | mstr : String → MModel
  | mlist : List String → MModel

/-- The dispatcher's `provider` field: absent, a provider-id string, or a
callback function (callbacks are interpreted through the adapter
environment, keeping the request first-order). -/
inductive MProvider where
  | undef : MProvider
  | pid : String → MProvider
  | pcallback : MProvider

/-- The `modelInput` object assembled by `aiTask` (after `Object.assign`):
the five positional fields plus the recognized configuration fields. -/
structure ModelInput where
  role : JsVal
  task : JsVal
  inputs : JsVal
  outputs : JsVal
  outputFormat : JsVal
  model : MModel
  provider : MProvider
  temperature : Option JsVal

/-- A configuration object passed as `configOrRole`: `none` means the key
is absent (so `Object.assign` leaves the base value in place). -/
structure Config where
  role : Option JsVal := none
  task : Option JsVal := none
  inputs : Option JsVal := none
  outputs : Option JsVal := none
  outputFormat : Option JsVal := none
  model : Option MModel := none
  provider : Option MProvider := none
  temperature : Option JsVal := none

/-- The `configOrRole` first argument of `aiTask`. -/
inductive ConfigOrRole where
  | roleStr : String → ConfigOrRole
  | config : Config → ConfigOrRole

/-- Model of `Object.assign(modelInput, configOrRole)`: each key present
in the configuration overrides the base object's value. -/
def assignConfig (m : ModelInput) (c : Config) : ModelInput :=
  { role := c.role.getD m.role
    task := c.task.getD m.task
    inputs := c.inputs.getD m.inputs
    outputs := c.outputs.getD m.outputs
    outputFormat := c.outputFormat.getD m.outputFormat
    model := c.model.getD m.model
    provider := c.provider.getD m.provider
    temperature :=
      match c.temperature with
      | some t => some t
      | none => m.temperature }

/-- Model of `modelInput.model = modelInput.model.shift()`: the head of
the array, or `undefined` when the array is empty. -/
def shiftModel : List String → MModel
  | [] => MModel.undef
  | s :: _ => MModel.mstr s

/-- Serialize a `ModelInput` the way `JSON.stringify(modelInput)` does:
`undefined`-valued and function-valued keys are dropped (so a callback
provider and an absent model leave no trace in the fingerprint). -/
def ModelInput.toJs (m : ModelInput) : JsVal :=
  JsVal.obj
    ([("role", m.role), ("task", m.task), ("inputs", m.inputs),
      ("outputs", m.outputs), ("outputFormat", m.outputFormat)]
     ++ (match m.model with
         | MModel.undef => []
         | MModel.mstr s => [("model", JsVal.str s)]
         | MModel.mlist ms => [("model", JsVal.arr (ms.map JsVal.str))])
     ++ (match m.provider with
         | MProvider.pid s => [("provider", JsVal.str s)]
         | _ => [])
     ++ (match m.temperature with
         | some t => [("temperature", t)]
         | none => []))

/-- Stand-in for `crypto.createHash("sha256")...digest("hex")`: the
digest of the serialized request.  The cryptographic library is external
to the repository; it is modelled as an injective (collision-free) digest,
which no claim's truth depends on. -/
def sha256Hex (s : String) : String := s

/-- Model of `hashQuery` from `src/aiTask.js`. -/
def hashQuery (m : ModelInput) : String :=
  sha256Hex ((stringifyVal m.toJs).getD "")

/-- The adapter environment: extensional behavior of the four provider
adapters and of a provider callback.  Each returns a value or throws one
(`Except.error`). -/
structure Env where
  ollama : ModelInput → Except JsVal JsVal
  openai : ModelInput → Except JsVal JsVal
  gemini : ModelInput → Except JsVal JsVal
  openrouter : ModelInput → Except JsVal JsVal
  callback : ModelInput → Except JsVal JsVal

/-- One provider-adapter invocation performed by the dispatcher, with the
request it received. -/
inductive AdapterCall where
  | ollama : ModelInput → AdapterCall
  | openai : ModelInput → AdapterCall
  | gemini : ModelInput → AdapterCall
  | openrouter : ModelInput → AdapterCall
  | callback : ModelInput → AdapterCall

/-- Truthiness of `modelInput.model` (`undefined` and `""` are falsy, an
array is truthy). -/
def modelTruthy : MModel → Bool
  | MModel.undef => false
  | MModel.mstr s => s != ""
  | MModel.mlist _ => true

/-- Model of `modelInput.model.includes("/")` (on a string: substring
containment of the separator character; the array case cannot occur after
normalization but keeps `Array.prototype.includes` semantics). -/
def modelHasSlash : MModel → Bool
  | MModel.undef => false
  | MModel.mstr s => strContainsChar s '/'
  | MModel.mlist ms => ms.contains "/"

/-- Model of `typeof modelInput.provider === 'function'`. -/
def isCallbackProvider : MProvider → Bool
  | MProvider.pcallback => true
  | _ => false

/-- Model of `!modelInput.provider || modelInput.provider === 'gemini'`
(an empty provider-id string is falsy and also selects Gemini). -/
def providerSelectsGemini : MProvider → Bool
  | MProvider.undef => true
  | MProvider.pid s => s == "" || s == "gemini"
  | MProvider.pcallback => false

/-- Model of `modelInput.provider === 'openai'`. -/
def providerIsOpenAI : MProvider → Bool
  | MProvider.pid s => s == "openai"
  | _ => false

/-- The backend-dispatch block of `aiTask` (src/aiTask.js lines 101-117):
on `localOnly` call Ollama with no null check; otherwise walk the
provider-selection chain, and throw the string
`"Could not generate answer"` when the selected call resolves to `null`
or no branch matches (leaving `responseContent` at `null`). -/
def runAdapters (env : Env) (m : ModelInput) (localOnly : Bool) :
    Except JsVal JsVal × List AdapterCall :=
  if localOnly then
    (env.ollama m, [AdapterCall.ollama m])
  else
    let step : Option (Except JsVal JsVal × AdapterCall) :=
      if isCallbackProvider m.provider then
        some (env.callback m, AdapterCall.callback m)
      else if modelTruthy m.model && modelHasSlash m.model then
        some (env.openrouter m, AdapterCall.openrouter m)
      else if providerSelectsGemini m.provider then
        some (env.gemini m, AdapterCall.gemini m)
      else if providerIsOpenAI m.provider then
        some (env.openai m, AdapterCall.openai m)
      else
        none
    match step with
    | some (Except.error e, call) => (Except.error e, [call])
    | some (Except.ok v, call) =>
      if v.isNull then
        (Except.error (JsVal.str "Could not generate answer"), [call])
      else
        (Except.ok v, [call])
    | none => (Except.error (JsVal.str "Could not generate answer"), [])

/-- Normalization performed at the top of `aiTask`: compute `role`, build
`modelInput`, apply `Object.assign` for a configuration object, and for an
array-valued `model` shift off the head, remembering the mutated tail as
`remainingModels` (`some` even when the tail is empty — the empty array is
truthy in JavaScript). -/
def normalizeInput (cfg : ConfigOrRole) (task inputs outputs outputFormat : JsVal) :
    ModelInput × Option (List String) :=
  match cfg with
  | ConfigOrRole.roleStr s =>
    ({ role := JsVal.str s, task := task, inputs := inputs, outputs := outputs,
       outputFormat := outputFormat, model := MModel.undef,
       provider := MProvider.undef, temperature := none }, none)
  | ConfigOrRole.config c =>
    let base : ModelInput :=
      { role := JsVal.null, task := task, inputs := inputs, outputs := outputs,
        outputFormat := outputFormat, model := MModel.undef,
        provider := MProvider.undef, temperature := none }
    let m1 := assignConfig base c
    match m1.model with
    | MModel.mlist ms => ({ m1 with model := shiftModel ms }, some ms.tail)
    | _ => (m1, none)

/-- The configuration object `{...modelInput, model: remainingModels}`
built for the recursive fallback call: every field of the current
`modelInput` is present, with `model` replaced by the remaining
candidate array. -/
def ModelInput.toConfig (m : ModelInput) (ms : List String) : Config :=
  { role := some m.role, task := some m.task, inputs := some m.inputs,
    outputs := some m.outputs, outputFormat := some m.outputFormat,
    model := some (MModel.mlist ms), provider := some m.provider,
    temperature := m.temperature }

/-- Outcome of one `aiTask` run: the returned value (or a thrown one, in
`Except.error`), the cache after the run, and the adapter invocations in
order. -/
structure RunResult where
  result : Except JsVal JsVal
  cache : Cache
  calls : List AdapterCall

/-- Model of `aiTask` from `src/aiTask.js`, with fuel bounding the
recursion depth of the fallback tail calls (`none` = the run did not
finish within the fuel; the JavaScript original can recurse forever once
the candidate array is drained and every dispatch keeps failing).  The
recursive call passes only the configuration object, so its positional
parameters are `undefined` and `localOnly` reverts to `false`, exactly as
in the source. -/
def aiTaskFuel :
    Nat → Env → Cache → ConfigOrRole → JsVal → JsVal → JsVal → JsVal → Bool →
    Option RunResult
  | 0, _, _, _, _, _, _, _, _ => none
  | Nat.succ fuel, env, cache, cfg, task, inputs, outputs, outputFormat, localOnly =>
    let norm := normalizeInput cfg task inputs outputs outputFormat
    let m := norm.1
    let remaining := norm.2
    let h := hashQuery m
    let cached := cacheGet cache h
    if (match cached with
        | some v => jsTruthy v
        | none => false) then
      some { result := Except.ok (cached.getD JsVal.null), cache := cache, calls := [] }
    else
      match runAdapters env m localOnly with
      | (Except.ok v, calls) =>
        some { result := Except.ok v, cache := cacheSet cache h v, calls := calls }
      | (Except.error _, calls) =>
        match remaining with
        | some ms =>
          match aiTaskFuel fuel env cache (ConfigOrRole.config (m.toConfig ms))
              JsVal.undef JsVal.undef JsVal.undef (JsVal.str "json_object") false with
          | none => none
          | some r =>
            some { result := r.result, cache := r.cache, calls := calls ++ r.calls }
        | none => some { result := Except.ok JsVal.null, cache := cache, calls := calls }

/-! ### JavaScript string coercion, pretty `JSON.stringify`, and `JSON.parse` -/

mutual

/-- JavaScript string coercion (template literals, `+` with a string):
arrays join their coerced elements with commas (`null`/`undefined`
elements become empty), plain objects become `"[object Object]"`. -/
def jsToString : JsVal → String
  | .null => "null"
  | .undef => "undefined"
  | .bool b => if b then "true" else "false"
  | .num n => toString n
  | .str s => s
  | .arr xs => String.intercalate "," (jsToStringArr xs)
  | .obj _ => "[object Object]"

/-- Elements of an array under JavaScript string coercion. -/
def jsToStringArr : List JsVal → List String
  | [] => []
  | x :: xs =>
    (match x with
     | JsVal.null => ""
     | JsVal.undef => ""
     | _ => jsToString x) :: jsToStringArr xs

end

mutual

/-- Model of `JSON.stringify(v, null, 2)` (two-space pretty printing):
`ind` is the indentation in front of the value's closing bracket. -/
def stringifyPV (ind : String) : JsVal → Option String
  | .null => some "null"
  | .undef => none
  | .bool b => some (if b then "true" else "false")
  | .num n => some (toString n)
  | .str s => some ("\"" ++ escapeJson s ++ "\"")
  | .arr xs =>
    let items := stringifyPArr (ind ++ "  ") xs
    some (if items.isEmpty then "[]"
          else "[\n" ++
               String.intercalate ",\n" (items.map (fun s => ind ++ "  " ++ s)) ++
               "\n" ++ ind ++ "]")
  | .obj fs =>
    let items := stringifyPObj (ind ++ "  ") fs
    some (if items.isEmpty then "{}"
          else "\x7b\n" ++
               String.intercalate ",\n" (items.map (fun s => ind ++ "  " ++ s)) ++
               "\n" ++ ind ++ "\x7d")

/-- Pretty-printed array elements (`undefined` becomes `null`). -/
def stringifyPArr (ind : String) : List JsVal → List String
  | [] => []
  | x :: xs => ((stringifyPV ind x).getD "null") :: stringifyPArr ind xs

/-- Pretty-printed object members (keys with `undefined` values dropped). -/
def stringifyPObj (ind : String) : List (String × JsVal) → List String
  | [] => []
  | (k, v) :: fs =>
    match stringifyPV ind v with
    | some s => ("\"" ++ escapeJson k ++ "\": " ++ s) :: stringifyPObj ind fs
    | none => stringifyPObj ind fs

end

/-- Model of `hasInput` in `buildPrompt`: `inputs` truthy, and a positive
`length` for arrays or a positive `Object.keys(...).length` otherwise
(for a string, `Object.keys` enumerates its character indices). -/
def hasInputJs (v : JsVal) : Bool :=
  jsTruthy v &&
    (match v with
     | .arr l => decide (0 < l.length)
     | .obj fs => decide (0 < fs.length)
     | .str s => decide (0 < s.length)
     | _ => false)

/-- Model of `outputFormat === "json_object"`. -/
def isJsonObjectFormat : JsVal → Bool
  | .str s => s == "json_object"
  | _ => false

/-- Model of `buildPrompt` from `src/aiTask.js`: up to three fenced
blocks (task, expected output, JSON-serialized input) in fixed order,
with the whole prompt trimmed at the end. -/
def buildPrompt (task inputs : JsVal) (outputs : JsVal) (isJSON : Bool) : String :=
  let delimiter := "```"
  let p1 :=
    if jsTruthy task then
      "TASK:\n" ++ delimiter ++ "\n" ++ jsToString task ++ "\n" ++ delimiter ++ "\n\n"
    else ""
  let p2 :=
    if jsTruthy outputs then
      "OUTPUT WITH FOLLOWING " ++ (if isJSON then "JSON" else "") ++ " FORMAT:\n" ++
      delimiter ++ "\n" ++ jsToString outputs ++ "\n" ++ delimiter ++ "\n"
    else ""
  let p3 :=
    if hasInputJs inputs then
      "INPUT:\n" ++ delimiter ++ "\n" ++
      (match stringifyPV "" inputs with
       | some s => s
       | none => "undefined") ++
      "\n" ++ delimiter ++ "\n    \n"
    else ""
  jsTrim (p1 ++ p2 ++ p3)

/-- Skip JSON whitespace. -/
def skipWs : List Char → List Char
  | c :: cs => if c = ' ' || c = '\n' || c = '\t' || c = '\r' then skipWs cs else c :: cs
  | [] => []

/-- Match a literal character sequence. -/
def parseLit : List Char → List Char → Option (List Char)
  | [], rest => some rest
  | l :: ls, c :: rest => if c = l then parseLit ls rest else none
  | _ :: _, [] => none

/-- Take a maximal run of decimal digits. -/
def takeDigits : List Char → List Char × List Char
  | [] => ([], [])
  | c :: cs =>
    if c.isDigit then
      let p := takeDigits cs
      (c :: p.1, p.2)
    else ([], c :: cs)

/-- Decimal digits to a natural number. -/
def digitsToNat (ds : List Char) : Nat :=
  ds.foldl (fun acc c => acc * 10 + (c.toNat - 48)) 0

/-- Parse the remainder of a JSON string literal (after the opening
quote), handling the basic escapes. -/
def parseStrChars : List Char → Option (String × List Char)
  | [] => none
  | c :: rest =>
    if c = '"' then some ("", rest)
    else if c = '\\' then
      match rest with
      | e :: rest2 =>
        let dec := if e = 'n' then "\n" else if e = 't' then "\t" else String.singleton e
        match parseStrChars rest2 with
        | some (s, r) => some (dec ++ s, r)
        | none => none
      | [] => none
    else
      match parseStrChars rest with
      | some (s, r) => some (String.singleton c ++ s, r)
      | none => none

mutual

/-- Fuel-bounded recursive-descent parser for the JSON fragment produced
by the backends in the scenarios considered (null, booleans, integers,
strings, arrays, objects); `none` models a `SyntaxError` from
`JSON.parse`. -/
def parseJsVal : Nat → List Char → Option (JsVal × List Char)
  | 0, _ => none
  | Nat.succ f, cs0 =>
    match skipWs cs0 with
    | [] => none
    | c :: cs =>
      if c = 'n' then (parseLit ['u', 'l', 'l'] cs).map (fun r => (JsVal.null, r))
      else if c = 't' then (parseLit ['r', 'u', 'e'] cs).map (fun r => (JsVal.bool true, r))
      else if c = 'f' then (parseLit ['a', 'l', 's', 'e'] cs).map (fun r => (JsVal.bool false, r))
      else if c = '"' then (parseStrChars cs).map (fun p => (JsVal.str p.1, p.2))
      else if c = '-' then
        match takeDigits cs with
        | ([], _) => none
        | (ds, rest) => some (JsVal.num (-(digitsToNat ds : Int)), rest)
      else if c.isDigit then
        match takeDigits (c :: cs) with
        | (ds, rest) => some (JsVal.num (digitsToNat ds : Int), rest)
      else if c = '[' then
        match skipWs cs with
        | ']' :: rest => some (JsVal.arr [], rest)
        | cs' =>
          match parseArrItems f cs' with
          | some (vs, r) => some (JsVal.arr vs, r)
          | none => none
      else if c = '{' then
        match skipWs cs with
        | '}' :: rest => some (JsVal.obj [], rest)
        | cs' =>
          match parseObjItems f cs' with
          | some (fs', r) => some (JsVal.obj fs', r)
          | none => none
      else none

/-- One-or-more comma-separated array items followed by `]`. -/
def parseArrItems : Nat → List Char → Option (List JsVal × List Char)
  | 0, _ => none
  | Nat.succ f, cs =>
    match parseJsVal f cs with
    | none => none
    | some (v, rest) =>
      match skipWs rest with
      | ',' :: rest2 =>
        match parseArrItems f rest2 with
        | some (vs, r) => some (v :: vs, r)
        | none => none
      | ']' :: rest2 => some ([v], rest2)
      | _ => none

/-- One-or-more comma-separated object members followed by `}`. -/
def parseObjItems : Nat → List Char → Option (List (String × JsVal) × List Char)
  | 0, _ => none
  | Nat.succ f, cs =>
    match skipWs cs with
    | '"' :: cs2 =>
      match parseStrChars cs2 with
      | none => none
      | some (k, rest) =>
        match skipWs rest with
        | ':' :: rest2 =>
          match parseJsVal f rest2 with
          | none => none
          | some (v, rest3) =>
            match skipWs rest3 with
            | ',' :: rest4 =>
              match parseObjItems f rest4 with
              | some (fs', r) => some ((k, v) :: fs', r)
              | none => none
            | '}' :: rest4 => some ([(k, v)], rest4)
            | _ => none
        | _ => none
    | _ => none

end

/-- Model of `JSON.parse`: `none` is a thrown `SyntaxError`. -/
def jsonParseOpt (s : String) : Option JsVal :=
  match parseJsVal (s.length + 1) s.toList with
  | some (v, rest) => if (skipWs rest).isEmpty then some v else none
  | none => none

/-! ### The Gemini adapter and fallback controller
(`src/utils/LLMAPI/gemini.js`) -/

/-- One entry of a Google API error's `errorDetails` array. -/
structure ErrDetail where
  atType : String
  retryDelay : Option String

/-- An error object raised by the Google client library: an HTTP-like
status (absent for non-HTTP failures) and optional error details. -/
structure GemError where
  status : Option Int
  errorDetails : Option (List ErrDetail)

/-- A value thrown inside `callGeminiModel`: an API error from the wire
call, a `SyntaxError` from `JSON.parse`, or a `TypeError` from a property
access on `null`/`undefined` (none of these two carry a `status`). -/
inductive GemThrow where
  | api : GemError → GemThrow
  | parseErr : GemThrow
  | typeError : GemThrow

/-- The `status` property of a thrown value (`undefined` for exceptions
that are not API errors). -/
def GemThrow.statusOf : GemThrow → Option Int
  | GemThrow.api e => e.status
  | _ => none

/-- Model of `isRateLimitError`: `error.status === 429`. -/
def isRateLimitError (e : GemThrow) : Bool :=
  e.statusOf == some 429

/-- The `@type` value identifying a RetryInfo error detail. -/
def RETRY_INFO_TYPE : String := "type.googleapis.com/google.rpc.RetryInfo"

/-- Remove the first occurrence of a character
(`String.prototype.replace` with a single-character pattern and empty
replacement). -/
def removeFirstChar : List Char → Char → List Char
  | [], _ => []
  | c :: cs, t => if c = t then cs else c :: removeFirstChar cs t

/-- Model of `parseInt(s, 10)`: optional sign, then a maximal leading
digit run; `none` models `NaN`. -/
def parseIntJS (s : String) : Option Int :=
  let cs := skipWs s.toList
  let signed : Bool × List Char :=
    match cs with
    | '-' :: r => (true, r)
    | '+' :: r => (false, r)
    | r => (false, r)
  match takeDigits signed.2 with
  | ([], _) => none
  | (ds, _) =>
    some (if signed.1 then -(digitsToNat ds : Int) else (digitsToNat ds : Int))

/-- Model of `rateLimitRetryDelay` from `src/utils/LLMAPI/gemini.js`:
extract the RetryInfo hint if present (the parsed hint is used as-is, the
constant 30 applies only when no hint was found), return
`delaySeconds * 1000 + 250` milliseconds.  The result is `none` when
`parseInt` produced `NaN` (a malformed hint), which poisons the delay. -/
def rateLimitRetryDelayMs (e : GemError) : Option Int :=
  let retryDelaySeconds : Option (Option Int) :=
    match e.errorDetails with
    | none => none
    | some ds =>
      match ds.find? (fun d => d.atType == RETRY_INFO_TYPE) with
      | none => none
      | some ri =>
        match ri.retryDelay with
        | none => none
        | some s =>
          if s == "" then none
          else some (parseIntJS (String.mk (removeFirstChar s.toList 's')))
  match retryDelaySeconds with
  | none => some (30 * 1000 + 250)
  | some (some n) => some (n * 1000 + 250)
  | some none => none

/-- `rateLimitRetryDelay` applied to a thrown value: a non-API exception
has no `errorDetails`, so the default delay applies (this branch is
unreachable behind `isRateLimitError`). -/
def rateLimitRetryDelayMsT : GemThrow → Option Int
  | GemThrow.api ge => rateLimitRetryDelayMs ge
  | _ => some (30 * 1000 + 250)

/-- The wire request assembled for `gModel.generateContent`, including
the `getGenerativeModel` configuration. -/
structure GenRequest where
  model : String
  systemInstruction : Option JsVal
  promptText : String
  temperature : JsVal
  responseMimeType : String
  responseSchema : Option JsVal

/-- The wire response: the response text and its usage metadata. -/
structure GenResp where
  text : String
  usageMetadata : JsVal

/-- The wire oracle: the behavior of `generateContent`, indexed by a
global call counter so that successive calls to the same request can
answer differently (rate-limited, then success). -/
structure GEnv where
  gen : Nat → GenRequest → Except GemError GenResp

/-- Observable events of a Gemini controller run: wire calls, `JSON.parse`
attempts on a response text, and backoff sleeps (in milliseconds; `none`
is a `NaN` delay). -/
inductive GEvent where
  | wire : GenRequest → GEvent
  | parse : String → GEvent
  | sleep : Option Int → GEvent

/-- Model of `outputs.type && (outputs.type === "array" || outputs.type === "object")`:
a property read on `null`/`undefined` throws a `TypeError`. -/
def outputsIsSchemaType : JsVal → Except GemThrow Bool
  | JsVal.null => Except.error GemThrow.typeError
  | JsVal.undef => Except.error GemThrow.typeError
  | JsVal.obj fs =>
    Except.ok
      (match lookupField fs "type" with
       | some (JsVal.str "array") => true
       | some (JsVal.str "object") => true
       | _ => false)
  | _ => Except.ok false

/-- Set (or overwrite) an object field, modelling a property assignment. -/
def setFieldJs : List (String × JsVal) → String → JsVal → List (String × JsVal)
  | [], key, v => [(key, v)]
  | (k, v') :: fs, key, v =>
    if k = key then (k, v) :: fs else (k, v') :: setFieldJs fs key v

/-- Model of `callGeminiModel` from `src/utils/LLMAPI/gemini.js`.

Fuel bounds the 499/503 overload retry, whose cap is commented out in the
source (unbounded).  `jret` and `oret` are the `JSONErrorRetry` and
`OverloadErrorRetry` parameters (`0` models `false`).  The function
returns the produced value or the thrown one, the advanced wire-call
counter, and the events of the run.

Faithfulness notes, checked against the source:
* `JSON.parse(responseContent)` (line 324) sits OUTSIDE the inner
  `try { return output } catch (JSONError) {...}` (lines 332-355); since
  `return output` cannot throw, that catch block — the one that would
  re-invoke the model up to `JSONErrorRetry > 3` — is dead code, so a
  parse failure propagates directly to the outer catch, and `jret` is
  never read or incremented.
* In the outer catch, a thrown value with no `status` (a `SyntaxError` or
  `TypeError`) matches neither 429 nor 499/503 and reaches the
  `unknown error` branch, which logs and returns `null`.
* The 499/503 branch increments `OverloadErrorRetry`, sleeps
  `OverloadErrorRetry * 10000` ms and retries with the current `task`
  and `model` variables (so the `gemma` `ROLE:` prefix, applied before
  the wire call, is applied again on retry). -/
def callGeminiModelFuel :
    Nat → GEnv → Nat →
    JsVal → JsVal → JsVal → JsVal → JsVal → JsVal →
    Option String → Nat → Nat → Bool →
    Option (Except GemThrow JsVal × Nat × List GEvent)
  | 0, _, _, _, _, _, _, _, _, _, _, _, _ => none
  | Nat.succ fuel, genv, k, role, task, inputs, outputs, outputFormat,
      temperature, model, jret, oret, includeMetadata =>
    let model1 := match model with
      | none => "gemini-2.5-flash"
      | some s => s
    let attempt : Except GemThrow JsVal × Nat × List GEvent :=
      match outputsIsSchemaType outputs with
      | Except.error e => (Except.error e, k, [])
      | Except.ok isSchemaType =>
        let supportsSys := !(strStartsWith model1 "gemma")
        let task1 :=
          if strStartsWith model1 "gemma" then
            JsVal.str ("ROLE:" ++ jsToString role ++ "\n\n" ++ jsToString task)
          else task
        let req : GenRequest :=
          { model := model1
            systemInstruction := if supportsSys then some role else none
            promptText := buildPrompt task1 inputs outputs (isJsonObjectFormat outputFormat)
            temperature := temperature
            responseMimeType :=
              if isJsonObjectFormat outputFormat then "application/json" else "text/plain"
            responseSchema := if isSchemaType then some outputs else none }
        match genv.gen k req with
        | Except.error e => (Except.error (GemThrow.api e), k + 1, [GEvent.wire req])
        | Except.ok resp =>
          let responseContent := resp.text
          if isJsonObjectFormat outputFormat then
            match jsonParseOpt responseContent with
            | none =>
              (Except.error GemThrow.parseErr, k + 1,
               [GEvent.wire req, GEvent.parse responseContent])
            | some v =>
              let out1 : Except GemThrow JsVal :=
                if includeMetadata then
                  match v with
                  | JsVal.obj fs =>
                    Except.ok (JsVal.obj (setFieldJs fs "usageMetadata" resp.usageMetadata))
                  | JsVal.arr xs => Except.ok (JsVal.arr xs)
                  | _ => Except.error GemThrow.typeError
                else Except.ok v
              (out1, k + 1, [GEvent.wire req, GEvent.parse responseContent])
          else
            (Except.ok (JsVal.str responseContent), k + 1, [GEvent.wire req])
    match attempt with
    | (Except.ok v, k', evs) => some (Except.ok v, k', evs)
    | (Except.error e, k', evs) =>
      if e.statusOf == some 429 then
        some (Except.error e, k', evs)
      else if e.statusOf == some 499 || e.statusOf == some 503 then
        let oret1 := if oret != 0 then oret + 1 else 1
        let task1 :=
          if strStartsWith model1 "gemma" then
            JsVal.str ("ROLE:" ++ jsToString role ++ "\n\n" ++ jsToString task)
          else task
        match callGeminiModelFuel fuel genv k' role task1 inputs outputs outputFormat
            temperature (some model1) jret oret1 includeMetadata with
        | none => none
        | some (r, k2, evs2) =>
          some (r, k2, evs ++ [GEvent.sleep (some ((oret1 : Int) * 10000))] ++ evs2)
      else
        some (Except.ok JsVal.null, k', evs)

/-- The default candidate list `geminiModels` (cheapest-first). -/
def geminiModels : List String :=
  ["gemini-3-flash", "gemini-2.5-flash", "gemini-2.5-flash-lite"]

/-- The `while (modelIndex < geminiModels.length)` walk of `callGemini`,
modelled on the suffix of the candidate list starting at the current
index: on a 429 advance to the next candidate, re-throw any other error,
and fall off the loop returning `undefined` when the list is exhausted. -/
def geminiWalkFuel :
    Nat → GEnv → Nat → List String →
    JsVal → JsVal → JsVal → JsVal → JsVal → JsVal → Bool →
    Option (Except GemThrow JsVal × Nat × List GEvent)
  | _, _, k, [], _, _, _, _, _, _, _ => some (Except.ok JsVal.undef, k, [])
  | fuel, genv, k, mdl :: rest, role, task, inputs, outputs, outputFormat,
      temperature, includeMetadata =>
    match callGeminiModelFuel fuel genv k role task inputs outputs outputFormat
        temperature (some mdl) 0 0 includeMetadata with
    | none => none
    | some (Except.ok v, k', evs) => some (Except.ok v, k', evs)
    | some (Except.error e, k', evs) =>
      if isRateLimitError e then
        match geminiWalkFuel fuel genv k' rest role task inputs outputs outputFormat
            temperature includeMetadata with
        | none => none
        | some (r, k2, evs2) => some (r, k2, evs ++ evs2)
      else
        some (Except.error e, k', evs)

/-- Outcome of one `callGemini` run: the returned or thrown value, the
advanced wire counter, the value of the module-level rate-limit cursor
`lastRateLimitedGeminiModelIndex` after the run, and the events. -/
structure GemRun where
  result : Except GemThrow JsVal
  wireCount : Nat
  cursor : Nat
  events : List GEvent

/-- Model of `callGemini` from `src/utils/LLMAPI/gemini.js`.  `gcur` is
the value of the module-level cursor `lastRateLimitedGeminiModelIndex`
when the call starts; the source declares the variable (initialized to 0)
and reads it as the starting index of the walk, but contains no
assignment to it, so the returned cursor always equals the input.

In the pinned branch (`model !== null || bestModel`): on a rate-limit
error, sleep `rateLimitRetryDelay(error) + 1000` ms and retry the same
arguments; on any other error the catch falls through — without
re-throwing — to the default-list walk. -/
def callGeminiFuel :
    Nat → GEnv → Nat → Nat →
    JsVal → JsVal → JsVal → JsVal → JsVal → JsVal →
    Option String → Bool → Bool →
    Option GemRun
  | 0, _, _, _, _, _, _, _, _, _, _, _, _ => none
  | Nat.succ fuel, genv, k, gcur, role, task, inputs, outputs, outputFormat,
      temperature, model, bestModel, includeMetadata =>
    if model.isSome || bestModel then
      match callGeminiModelFuel (Nat.succ fuel) genv k role task inputs outputs
          outputFormat temperature model 0 0 includeMetadata with
      | none => none
      | some (Except.ok v, k', evs) =>
        some { result := Except.ok v, wireCount := k', cursor := gcur, events := evs }
      | some (Except.error e, k', evs) =>
        if isRateLimitError e then
          let sleepMs := (rateLimitRetryDelayMsT e).map (fun d => d + 1000)
          match callGeminiFuel fuel genv k' gcur role task inputs outputs outputFormat
              temperature model bestModel includeMetadata with
          | none => none
          | some r =>
            some { r with events := evs ++ [GEvent.sleep sleepMs] ++ r.events }
        else
          match geminiWalkFuel (Nat.succ fuel) genv k' (geminiModels.drop gcur) role task
              inputs outputs outputFormat temperature includeMetadata with
          | none => none
          | some (r, k2, evs2) =>
            some { result := r, wireCount := k2, cursor := gcur, events := evs ++ evs2 }
    else
      match geminiWalkFuel (Nat.succ fuel) genv k (geminiModels.drop gcur) role task
          inputs outputs outputFormat temperature includeMetadata with
      | none => none
      | some (r, k2, evs2) =>
        some { result := r, wireCount := k2, cursor := gcur, events := evs2 }

/-! ### The schema compiler (`src/utils/createJSONSchema.js`) -/

/-- Model of JavaScript `typeof` on `JsVal` (`typeof null` is
`"object"`). -/
def typeofJs : JsVal → String
  | .null => "object"
  | .undef => "undefined"
  | .bool _ => "boolean"
  | .num _ => "number"
  | .str _ => "string"
  | .arr _ => "object"
  | .obj _ => "object"

/-- The Zod schema values built by `convertToZod`, restricted to the
constructors the compiler actually produces. -/
inductive ZType where
  | zstring : ZType
  | znumber : ZType
  | zboolean : ZType
  | zstringMax : Nat → ZType
  | znativeEnum : List JsVal → ZType
  | zany : ZType
  | zoptional : ZType → ZType
  | znullable : ZType → ZType
  | zdescribe : ZType → String → ZType
  | zobject : List (String × ZType) → ZType
  | zarray : ZType → ZType
  | zunion : List ZType → ZType
  | zrecord : ZType → ZType → ZType

/-- The pipe-branch body of `parseStringDescription`, over the split and
trimmed parts of the descriptor string. -/
def parseStringDescriptionParts (parts : List String) : Except String ZType :=
  let part0 := parts.headD ""
    let type0 := if (jsToLower part0) == "" then "string" else (jsToLower part0)
    let description0 :=
      match parts with
      | _ :: d :: _ => if d == "" then part0 else d
      | _ => part0
    let isOptional := strIncludes type0 " optional"
    let type1 :=
      if isOptional then jsTrim (strReplaceFirst type0 " optional" "") else type0
    let core : Except String (ZType × Option String) :=
      if (jsToLower type1) == "number" then Except.ok (ZType.znumber, some description0)
      else if (jsToLower type1) == "boolean" then Except.ok (ZType.zboolean, some description0)
      else if (jsToLower type1) == "naming" then Except.ok (ZType.zstringMax 80, some description0)
      else if (jsToLower type1) == "paragraph" then Except.ok (ZType.zstring, some description0)
      else if (jsToLower type1) == "enum" then
        match jsonParseOpt description0 with
        | some (JsVal.arr vs) => Except.ok (ZType.znativeEnum vs, none)
        | some _ => Except.error "Malformed Enum: Enum values must be a JSON array."
        | none => Except.error "Malformed Enum: JSON parse failure"
      else Except.ok (ZType.zstring, some description0)
    match core with
    | Except.error e => Except.error e
    | Except.ok (zt, desc) =>
      let zt1 := if isOptional then ZType.znullable (ZType.zoptional zt) else zt
      match desc with
      | some d => Except.ok (if d == "" then zt1 else ZType.zdescribe zt1 d)
      | none => Except.ok zt1

/-- Model of `parseStringDescription` from `src/utils/createJSONSchema.js`.
Exceptions (the `Malformed Enum` error) are `Except.error`. -/
def parseStringDescription (descriptionString : String) : Except String ZType :=
  if strIncludes descriptionString "|" then
    parseStringDescriptionParts ((jsSplit descriptionString '|').map jsTrim)
  else
    if descriptionString == "" then Except.ok ZType.zstring
    else Except.ok (ZType.zdescribe ZType.zstring descriptionString)

/-- Is a field value an `[[...], 'anyOf']` union shape? -/
def isAnyOfShape : List JsVal → Bool
  | JsVal.arr _ :: JsVal.str s :: _ => s == "anyOf"
  | _ => false

mutual

/-- Model of `convertToZod` from `src/utils/createJSONSchema.js`. -/
def convertToZod : JsVal → Except String ZType
  | JsVal.obj fs =>
    if jsTruthy ((lookupField fs "__is_record").getD JsVal.undef) then
      convertRecordSample fs
    else
      match convertFields fs with
      | Except.ok zfs => Except.ok (ZType.zobject zfs)
      | Except.error e => Except.error e
  | JsVal.arr xs => convertArr xs
  | JsVal.str s => parseStringDescription s
  | v => Except.ok (ZType.zdescribe ZType.zany ("Type of " ++ typeofJs v))

/-- One member value of `convertToZod`'s object branch. -/
def convertFieldValue : JsVal → Except String ZType
  | JsVal.str s => parseStringDescription s
  | JsVal.arr xs => convertFieldArr xs
  | JsVal.obj ofs => convertToZod (JsVal.obj ofs)
  | other => Except.ok (ZType.zdescribe ZType.zany ("Type of " ++ typeofJs other))

/-- The member loop of `convertToZod`'s object branch. -/
def convertFields : List (String × JsVal) → Except String (List (String × ZType))
  | [] => Except.ok []
  | (k, v) :: fs =>
    match convertFieldValue v with
    | Except.error e => Except.error e
    | Except.ok z0 =>
      match convertFields fs with
      | Except.error e => Except.error e
      | Except.ok zfs => Except.ok ((k, z0) :: zfs)

/-- An array-valued object member: `z.array(convertToZod(value[0]))` is
built first (an empty array's missing head is `undefined`), then a
trailing `'optional'` wraps it optional-nullable, or an
`[[...], 'anyOf']` shape replaces it by an array of a union. -/
def convertFieldArr (xs : List JsVal) : Except String ZType :=
  let firstElem : Except String ZType :=
    match xs with
    | [] => Except.ok (ZType.zdescribe ZType.zany "Type of undefined")
    | x :: _ => convertToZod x
  match firstElem with
  | Except.error e => Except.error e
  | Except.ok z0 =>
    match xs with
    | _ :: JsVal.str "optional" :: _ =>
      Except.ok (ZType.znullable (ZType.zoptional (ZType.zarray z0)))
    | JsVal.arr inner :: JsVal.str "anyOf" :: _ =>
      match convertList inner with
      | Except.ok zs => Except.ok (ZType.zarray (ZType.zunion zs))
      | Except.error e => Except.error e
    | _ => Except.ok (ZType.zarray z0)

/-- The top-level array branch of `convertToZod`. -/
def convertArr (xs : List JsVal) : Except String ZType :=
  if isAnyOfShape xs then
    match xs with
    | JsVal.arr inner :: _ =>
      match convertList inner with
      | Except.ok zs => Except.ok (ZType.zarray (ZType.zunion zs))
      | Except.error e => Except.error e
    | _ => Except.ok (ZType.zarray ZType.zany)
  else
    match xs with
    | [] => Except.ok (ZType.zarray ZType.zany)
    | x :: _ =>
      match convertToZod x with
      | Except.ok z0 => Except.ok (ZType.zarray z0)
      | Except.error e => Except.error e

/-- Element-wise conversion for unions. -/
def convertList : List JsVal → Except String (List ZType)
  | [] => Except.ok []
  | x :: xs =>
    match convertToZod x with
    | Except.error e => Except.error e
    | Except.ok z0 =>
      match convertList xs with
      | Except.error e => Except.error e
      | Except.ok zs => Except.ok (z0 :: zs)

/-- Model of `handleRecordConversion`: find the first member whose key is
not `__is_record` and build `z.record` from the key string (a string, so
`convertToZod` takes the `parseStringDescription` branch) and the sample
value; with no sample, a record of strings to any. -/
def convertRecordSample : List (String × JsVal) → Except String ZType
  | [] => Except.ok (ZType.zrecord ZType.zstring ZType.zany)
  | (k, v) :: fs =>
    if k = "__is_record" then convertRecordSample fs
    else
      match parseStringDescription k with
      | Except.error e => Except.error e
      | Except.ok kz =>
        match convertToZod v with
        | Except.error e => Except.error e
        | Except.ok vz => Except.ok (ZType.zrecord kz vz)

end

/-- Does a Zod schema accept `undefined` (so its key is excluded from the
parent object's `required` list)?  `.optional()` does; `.nullable()` and
`.describe()` pass the inner schema's optionality through. -/
def zIsOptionalQ : ZType → Bool
  | ZType.zoptional _ => true
  | ZType.znullable t => zIsOptionalQ t
  | ZType.zdescribe t _ => zIsOptionalQ t
  | _ => false

/-- Attach a `description` member to a schema document. -/
def setDescription : JsVal → String → JsVal
  | JsVal.obj fs, d => JsVal.obj (("description", JsVal.str d) :: fs)
  | v, _ => v

mutual

/-- Model of the zod library's `z.toJSONSchema(schema, {io: "input"})`,
restricted to the schemas `convertToZod` produces.  The zod dependency is
external to the repository; this conversion follows zod's documented
behavior and is cross-checked against the expected outputs recorded in
the repository's own `src/utils/simpleTest.js` (nullable wraps the inner
schema in an `anyOf` with the null schema, `describe` adds a
`description` member, optional members are omitted from `required`, and
an empty `required` list is omitted altogether; the `$schema` member,
which the source deletes right after conversion, is not emitted). -/
def zodToJSONSchema : ZType → JsVal
  | ZType.zstring => JsVal.obj [("type", JsVal.str "string")]
  | ZType.znumber => JsVal.obj [("type", JsVal.str "number")]
  | ZType.zboolean => JsVal.obj [("type", JsVal.str "boolean")]
  | ZType.zstringMax n =>
    JsVal.obj [("type", JsVal.str "string"), ("maxLength", JsVal.num n)]
  | ZType.znativeEnum vs =>
    JsVal.obj [("type", JsVal.str "string"), ("enum", JsVal.arr vs)]
  | ZType.zany => JsVal.obj []
  | ZType.zoptional t => zodToJSONSchema t
  | ZType.znullable t =>
    JsVal.obj [("anyOf", JsVal.arr [zodToJSONSchema t, JsVal.obj [("type", JsVal.str "null")]])]
  | ZType.zdescribe t d => setDescription (zodToJSONSchema t) d
  | ZType.zobject zfs =>
    let req := zodRequiredKeys zfs
    JsVal.obj
      ([("type", JsVal.str "object"),
        ("properties", JsVal.obj (zodFieldsToJSON zfs))]
       ++ (if req.isEmpty then [] else [("required", JsVal.arr (req.map JsVal.str))]))
  | ZType.zarray t =>
    JsVal.obj [("type", JsVal.str "array"), ("items", zodToJSONSchema t)]
  | ZType.zunion ts => JsVal.obj [("anyOf", JsVal.arr (zodListToJSON ts))]
  | ZType.zrecord kt vt =>
    JsVal.obj [("type", JsVal.str "object"),
               ("propertyNames", zodToJSONSchema kt),
               ("additionalProperties", zodToJSONSchema vt)]

/-- Object members of the JSON Schema document. -/
def zodFieldsToJSON : List (String × ZType) → List (String × JsVal)
  | [] => []
  | (k, t) :: fs => (k, zodToJSONSchema t) :: zodFieldsToJSON fs

/-- Keys of the non-optional members, in order. -/
def zodRequiredKeys : List (String × ZType) → List String
  | [] => []
  | (k, t) :: fs =>
    if zIsOptionalQ t then zodRequiredKeys fs else k :: zodRequiredKeys fs

/-- Schema documents of a union's members. -/
def zodListToJSON : List ZType → List JsVal
  | [] => []
  | t :: ts => zodToJSONSchema t :: zodListToJSON ts

end

/-- Model of `createJSONSchema`: `isZodSchema` is always false on plain
data (no `safeParse` method), so the input is converted and serialized
(`Except.error` models the thrown `Malformed Enum` error). -/
def createJSONSchemaE (input : JsVal) : Except String JsVal :=
  match convertToZod input with
  | Except.error e => Except.error e
  | Except.ok zt => Except.ok (zodToJSONSchema zt)

/-! ### The message builder (`src/utils/LLMAPI/messages.js`) and the
Ollama adapter (`src/utils/LLMAPI/ollama.js`) -/

/-- Stand-in for the numeric literal `0.7` (the default `temperature`),
which the integer-valued `JsVal.num` cannot carry; it is only ever passed
through to wire oracles and never inspected, compared or printed by any
code path a claim exercises. -/
def tempDefault : JsVal := JsVal.str "0.7"

/-- Remove an object member (`delete inputs.images`). -/
def removeField : List (String × JsVal) → String → List (String × JsVal)
  | [], _ => []
  | (k, v) :: fs, key =>
    if k = key then removeField fs key else (k, v) :: removeField fs key

/-- Model of `Object.entries` (on a string: indexed characters). -/
def entriesJs : JsVal → List (String × JsVal)
  | JsVal.obj fs => fs
  | JsVal.arr xs => xs.enum.map (fun p => (toString p.1, p.2))
  | JsVal.str s =>
    s.toList.enum.map (fun p => (toString p.1, JsVal.str (String.singleton p.2)))
  | _ => []

/-- Model of `openAIImageMessageBuilder` from
`src/utils/LLMAPI/messages.js`. -/
def openAIImageMessageBuilder (text : String) (images : List JsVal) : JsVal :=
  let textPart := JsVal.obj [("type", JsVal.str "text"), ("text", JsVal.str text)]
  let imagePart := fun (b : JsVal) =>
    let urlObj := JsVal.obj [("url", JsVal.str ("data:image/jpeg;base64," ++ jsToString b))]
    JsVal.obj [("type", JsVal.str "image_url"), ("image_url", urlObj)]
  JsVal.obj
    [("role", JsVal.str "user"),
     ("content", JsVal.arr (textPart :: images.map imagePart))]

/-- Model of `ollamaImageMessageBuilder` from
`src/utils/LLMAPI/ollama.js`. -/
def ollamaImageMessageBuilder (text : String) (images : List JsVal) : JsVal :=
  JsVal.obj [("role", JsVal.str "user"), ("content", JsVal.str text),
             ("images", JsVal.arr images)]

/-- Model of `messages.slice(-1)[0].images = images`: assigning a member
works on an object, is invisible to JSON on an array, and throws a
`TypeError` on `null` or a primitive. -/
def attachImages (v : JsVal) (images : List JsVal) : Except String JsVal :=
  match v with
  | JsVal.obj fs => Except.ok (JsVal.obj (setFieldJs fs "images" (JsVal.arr images)))
  | JsVal.arr xs => Except.ok (JsVal.arr xs)
  | _ => Except.error "TypeError"

/-- Map a function over the last element of a list. -/
def mapLast {α : Type} (f : α → α) : List α → List α
  | [] => []
  | [x] => [f x]
  | x :: y :: rest => x :: mapLast f (y :: rest)

/-- The observable outcome of `createOllamaMessages`: the message list,
the two flags, the schema, and the caller's `inputs` mapping after the
call (the source mutates it in place; the mutation is made explicit as a
returned value). -/
structure MessagesResult where
  messages : List JsVal
  returnWholeMessage : Bool
  isSchemaType : Bool
  schema : JsVal
  inputsAfter : JsVal

/-- Model of `createOllamaMessages` from `src/utils/LLMAPI/messages.js`.

`b64` is the external `base64Image` preprocessor (sharp), supplied as an
oracle.  Thrown errors (`TypeError` on property access through
`null`/`undefined`, the schema compiler's `Malformed Enum`) are
`Except.error`.

Faithfulness notes, checked against the source:
* When `inputs.images` is a non-empty array, each entry is overwritten in
  place with its encoding and the `images` key is then deleted, so the
  caller's mapping loses the key (a non-empty string value would reach an
  indexed assignment on a primitive, a strict-mode `TypeError`).
* `jsonSchemaOutputs` is computed (and can throw) even though its value
  is unused.
* `buildPrompt` receives the mutated `inputs` (after the deletion).
* With a raw `inputs.messages` array, the last message object is mutated
  by attaching the `images` member; when that last message came from the
  caller (a non-string entry, pushed by reference), the caller's entry is
  mutated too, which `inputsAfter` reflects.  String entries become fresh
  user turns, so the caller's strings are untouched. -/
def createOllamaMessages
    (b64 : JsVal → String)
    (imageMessageBuilder : String → List JsVal → JsVal)
    (role task inputs outputs outputFormat : JsVal)
    (USE_JSON_SCHEMA : Bool) :
    Except String MessagesResult := do
  let imagesStep : Except String (List JsVal × JsVal) :=
    match inputs with
    | JsVal.null => Except.error "TypeError"
    | JsVal.undef => Except.error "TypeError"
    | JsVal.obj fs =>
      match lookupField fs "images" with
      | some (JsVal.arr l) =>
        if l.isEmpty then Except.ok ([], inputs)
        else
          Except.ok (l.map (fun x => JsVal.str (b64 x)),
                     JsVal.obj (removeField fs "images"))
      | some (JsVal.str s) =>
        if s == "" then Except.ok ([], inputs) else Except.error "TypeError"
      | _ => Except.ok ([], inputs)
    | _ => Except.ok ([], inputs)
  let p ← imagesStep
  let images := p.1
  let inputsAfter := p.2
  let isSchemaTypeE : Except String Bool :=
    if USE_JSON_SCHEMA then
      match outputsIsSchemaType outputs with
      | Except.ok b => Except.ok b
      | Except.error _ => Except.error "TypeError"
    else Except.ok false
  let isSchemaType ← isSchemaTypeE
  let schema := if isSchemaType then outputs else JsVal.null
  let USE_JSON_SCHEMA2 := USE_JSON_SCHEMA && isJsonObjectFormat outputFormat
  let USE_JSON_AS_OUTPUT :=
    !(match outputFormat with
      | JsVal.str s => s == "text"
      | _ => false)
  let jsonOutputs : JsVal :=
    if !outputs.isNull then
      match stringifyPV "" outputs with
      | some s => JsVal.str s
      | none => JsVal.undef
    else JsVal.str ""
  let _ ← (if !outputs.isNull then (createJSONSchemaE outputs).map (fun _ => ())
           else Except.ok ())
  let jsonOutputsAsList : String :=
    if !outputs.isNull then
      "JSON " ++ String.intercalate "\n"
        ((entriesJs outputs).map (fun q =>
          q.1 ++ ": " ++ ((stringifyPV "" q.2).getD "undefined")))
    else ""
  let prompt := buildPrompt task inputsAfter
    (if USE_JSON_SCHEMA2 || !USE_JSON_AS_OUTPUT then JsVal.str jsonOutputsAsList
     else jsonOutputs)
    USE_JSON_AS_OUTPUT
  let base :=
    if jsTruthy role then [JsVal.obj [("role", JsVal.str "system"), ("content", role)]]
    else []
  match (match inputsAfter with
         | JsVal.obj fs => lookupField fs "messages"
         | _ => none) with
  | some (JsVal.arr msgs) =>
    let pushed := msgs.map (fun m =>
      match m with
      | JsVal.str s => JsVal.obj [("role", JsVal.str "user"), ("content", JsVal.str s)]
      | other => other)
    let all := base ++ pushed
    match all.getLast? with
    | none =>
      Except.ok { messages := [], returnWholeMessage := true,
                  isSchemaType := isSchemaType, schema := schema,
                  inputsAfter := inputsAfter }
    | some lastMsg =>
      match attachImages lastMsg images with
      | Except.error e => Except.error e
      | Except.ok lastMsg' =>
        let messagesFinal := (all.dropLast ++ [lastMsg']).filter jsTruthy
        let inputsAfter2 :=
          match inputsAfter, msgs.getLast? with
          | JsVal.obj fs, some (JsVal.obj lfs) =>
            JsVal.obj (setFieldJs fs "messages"
              (JsVal.arr (mapLast
                (fun _ => JsVal.obj (setFieldJs lfs "images" (JsVal.arr images))) msgs)))
          | _, _ => inputsAfter
        Except.ok { messages := messagesFinal, returnWholeMessage := true,
                    isSchemaType := isSchemaType, schema := schema,
                    inputsAfter := inputsAfter2 }
  | _ =>
    Except.ok { messages := (base ++ [imageMessageBuilder prompt images]).filter jsTruthy,
                returnWholeMessage := false,
                isSchemaType := isSchemaType, schema := schema,
                inputsAfter := inputsAfter }

/-- The wire request of `ollama.chat`. -/
structure ChatReq where
  model : JsVal
  messages : List JsVal
  format : JsVal
  temperature : JsVal

/-- Model of `callOllama` from `src/utils/LLMAPI/ollama.js`: build the
messages, call the chat oracle, and parse; the surrounding catch converts
every thrown error into a `null` return, so the function never throws. -/
def callOllamaModel (chat : ChatReq → Except String JsVal) (b64 : JsVal → String)
    (role task inputs outputs outputFormat temperature model : JsVal) : JsVal :=
  let body : Except String JsVal := do
    let mr ← createOllamaMessages b64 ollamaImageMessageBuilder role task inputs outputs
      outputFormat false
    let req : ChatReq :=
      { model := model
        messages := mr.messages
        format :=
          if isJsonObjectFormat outputFormat then JsVal.str "json" else JsVal.null
        temperature := temperature }
    let response ← chat req
    let message : Except String JsVal :=
      match response with
      | JsVal.obj fs => Except.ok ((lookupField fs "message").getD JsVal.undef)
      | JsVal.null => Except.error "TypeError"
      | JsVal.undef => Except.error "TypeError"
      | _ => Except.ok JsVal.undef
    let msg ← message
    if mr.returnWholeMessage then
      Except.ok msg
    else do
      let content ←
        match msg with
        | JsVal.obj fs => Except.ok ((lookupField fs "content").getD JsVal.undef)
        | JsVal.null => Except.error "TypeError"
        | JsVal.undef => Except.error "TypeError"
        | _ => Except.ok JsVal.undef
      if isJsonObjectFormat outputFormat then
        match content with
        | JsVal.str s =>
          match jsonParseOpt s with
          | some v => Except.ok v
          | none => Except.error "SyntaxError"
        | other =>
          match jsonParseOpt (jsToString other) with
          | some v => Except.ok v
          | none => Except.error "SyntaxError"
      else Except.ok content
  match body with
  | Except.ok v => v
  | Except.error _ => JsVal.null

/-- The Ollama provider adapter as the dispatcher sees it: destructure
`modelInput` with the source's defaults (`inputs`/`outputs` default to
`null`, `model` to `"llama3.2"`) and never throw. -/
def ollamaAdapter (chat : ChatReq → Except String JsVal) (b64 : JsVal → String) :
    ModelInput → Except JsVal JsVal :=
  fun m =>
    Except.ok (callOllamaModel chat b64 m.role m.task
      (match m.inputs with
       | JsVal.undef => JsVal.null
       | v => v)
      (match m.outputs with
       | JsVal.undef => JsVal.null
       | v => v)
      (match m.outputFormat with
       | JsVal.undef => JsVal.str "json_object"
       | v => v)
      (m.temperature.getD tempDefault)
      (match m.model with
       | MModel.mstr s => JsVal.str s
       | MModel.undef => JsVal.str "llama3.2"
       | MModel.mlist ms => JsVal.arr (ms.map JsVal.str)))

/-! ### Concrete scenario environments and trace projections -/

/-- An adapter environment with one fixed outcome everywhere, the base of
the scenario environments. -/
def constEnv (v : Except JsVal JsVal) : Env :=
  { ollama := fun _ => v, openai := fun _ => v, gemini := fun _ => v,
    openrouter := fun _ => v, callback := fun _ => v }

/-- Encode a value thrown by the Gemini controller as the JavaScript
error value the dispatcher's catch receives (the dispatcher logs it but
never inspects it). -/
def gemThrowToJs : GemThrow → JsVal
  | GemThrow.api e =>
    JsVal.obj [("status",
      match e.status with
      | some n => JsVal.num n
      | none => JsVal.undef)]
  | GemThrow.parseErr => JsVal.str "SyntaxError"
  | GemThrow.typeError => JsVal.str "TypeError"

/-- The Gemini provider adapter as the dispatcher sees it: destructure
`modelInput` with `callGemini`'s defaults (`outputFormat` defaults to
`"json_object"`, `temperature` to 0.7, `model` to `null`, `bestModel` and
`includeMetadata` to `false`) and run the embedded controller over the
given wire oracle with a fresh wire counter and the given cursor.

A fuel-exhausted controller run models a JavaScript call that never
returns, so it has no value to hand the dispatcher; it is mapped to a
thrown marker, and every theorem invoking this adapter fixes a scenario
whose controller runs terminate within the given fuel — certified by the
same theorem's (or its counterexample companion's) controller-level
equation.  An array-valued `model` cannot reach an adapter (the
dispatcher's normalization always shifts explicit arrays down to a
scalar or `undefined`), so `MModel.mlist` is mapped like the `null`
default. -/
def geminiAdapterOf (fuel : Nat) (genv : GEnv) (gcur : Nat) :
    ModelInput → Except JsVal JsVal :=
  fun m =>
    match callGeminiFuel fuel genv 0 gcur m.role m.task m.inputs m.outputs
        (match m.outputFormat with
         | JsVal.undef => JsVal.str "json_object"
         | v => v)
        (m.temperature.getD tempDefault)
        (match m.model with
         | MModel.mstr s => some s
         | _ => none)
        false false with
    | some r =>
      match r.result with
      | Except.ok v => Except.ok v
      | Except.error e => Except.error (gemThrowToJs e)
    | none => Except.error (JsVal.str "controller out of fuel")

/-- Scenario: the wire backends for models `"A"` and `"B"` always fail
with an unknown (non-429, non-overload) error — which `callGeminiModel`'s
outer catch converts to a `null` return — and every other model succeeds
with `"{}"`. -/
def genvFatalABSucceedC : GEnv :=
  { gen := fun _ req =>
      if req.model == "A" || req.model == "B" then
        Except.error { status := some 500, errorDetails := none }
      else Except.ok { text := "{}", usageMetadata := JsVal.undef } }

/-- A 429 error carrying the RetryInfo hint `"5s"`. -/
def rlHint5 : GemError :=
  { status := some 429,
    errorDetails := some [{ atType := RETRY_INFO_TYPE, retryDelay := some "5s" }] }

/-- Scenario: the first two wire calls are rate-limited with the `5s`
hint, every later call succeeds with `"{}"` (candidate A recovers after
two rate limits). -/
def genvRateLimitTwice : GEnv :=
  { gen := fun k _ =>
      if k < 2 then Except.error rlHint5
      else Except.ok { text := "{}", usageMetadata := JsVal.undef } }

/-- Scenario: every wire call answers a bare 429 (persistent rate
limiting, no retry hint). -/
def genvAlways429 : GEnv :=
  { gen := fun _ _ => Except.error { status := some 429, errorDetails := none } }

/-- The dispatcher environment whose Gemini slot is the embedded
controller over `genvFatalABSucceedC`. -/
def envQueueFatal : Env :=
  { constEnv (Except.ok JsVal.null) with gemini := geminiAdapterOf 10 genvFatalABSucceedC 0 }

/-- The dispatcher environment whose Gemini slot is the embedded
controller over `genvRateLimitTwice`. -/
def envQueueRateLimited : Env :=
  { constEnv (Except.ok JsVal.null) with gemini := geminiAdapterOf 10 genvRateLimitTwice 0 }

/-- Scenario: the explicit candidate array `model = ["A", "B", "C"]`. -/
def cfgQueueOrder : ConfigOrRole :=
  ConfigOrRole.config
    { role := some (JsVal.str "r"), model := some (MModel.mlist ["A", "B", "C"]) }

/-- Scenario: every adapter answers the empty text (a successful but
falsy payload, as a text-format backend can produce). -/
def envTextEmpty : Env := constEnv (Except.ok (JsVal.str ""))

/-- Scenario: the Ollama adapter built from an unreachable chat backend
(every wire call throws), so `callOllama`'s catch returns `null`. -/
def envLocalNull : Env :=
  { constEnv (Except.ok JsVal.null) with
    ollama := ollamaAdapter (fun _ => Except.error "ECONNREFUSED") (fun _ => "ENC") }

/-- Scenario: a backend whose every response is unparsable text. -/
def genvUnparsable : GEnv :=
  { gen := fun _ _ => Except.ok { text := "not json", usageMetadata := JsVal.undef } }

/-- Scenario: the first wire call is rate-limited with a 5-second hint,
every later call succeeds with `"{}"`. -/
def genvRateLimitOnce : GEnv :=
  { gen := fun k _ =>
      if k == 0 then Except.error rlHint5
      else Except.ok { text := "{}", usageMetadata := JsVal.undef } }

/-- Scenario: the cheapest default candidate is always rate-limited (no
hint), every other model succeeds with `"{}"`. -/
def genvCheapRateLimited : GEnv :=
  { gen := fun _ req =>
      if req.model == "gemini-3-flash" then
        Except.error { status := some 429, errorDetails := none }
      else Except.ok { text := "{}", usageMetadata := JsVal.undef } }

/-- The models of the wire calls of a run, in order. -/
def wireModels : List GEvent → List String
  | [] => []
  | GEvent.wire q :: evs => q.model :: wireModels evs
  | _ :: evs => wireModels evs

/-- The number of `JSON.parse` attempts in a run. -/
def parseCount : List GEvent → Nat
  | [] => 0
  | GEvent.parse _ :: evs => parseCount evs + 1
  | _ :: evs => parseCount evs

/-- The backoff sleeps of a run, in milliseconds, in order. -/
def sleepsOf : List GEvent → List (Option Int)
  | [] => []
  | GEvent.sleep d :: evs => d :: sleepsOf evs
  | _ :: evs => sleepsOf evs

/-- Which adapter a dispatcher invocation went to, with the candidate it
received. -/
def callTag : AdapterCall → String × MModel
  | AdapterCall.ollama m => ("ollama", m.model)
  | AdapterCall.openai m => ("openai", m.model)
  | AdapterCall.gemini m => ("gemini", m.model)
  | AdapterCall.openrouter m => ("openrouter", m.model)
  | AdapterCall.callback m => ("callback", m.model)

/-- First-match lookup in a compiled Zod object. -/
def lookupZ : List (String × ZType) → String → Option ZType
  | [], _ => none
  | (k, v) :: rest, key => if k = key then some v else lookupZ rest key

/-- An adapter environment where every adapter throws. -/
def envAllThrow : Env := constEnv (Except.error JsVal.null)

/-! ## Helper lemmas -/

theorem cacheGet_cacheSet (c : Cache) (k : String) (v : JsVal) (f : String) :
    cacheGet (cacheSet c k v) f = if k = f then some v else cacheGet c f := by
  induction c with
  | nil => simp [cacheSet, cacheGet]
  | cons p rest ih =>
    obtain ⟨k', v'⟩ := p
    simp only [cacheSet]
    by_cases h1 : k' = k
    · subst h1
      simp only [if_pos rfl, cacheGet]
      by_cases h2 : k' = f <;> simp [h2]
    · simp only [if_neg h1, cacheGet]
      by_cases h2 : k' = f
      · subst h2
        have hk : ¬ k = k' := fun hh => h1 hh.symm
        simp [hk]
      · simp [h2, ih]

theorem runAdapters_openrouter (env : Env) (m : ModelInput) (s : String)
    (hprov : isCallbackProvider m.provider = false)
    (hmodel : m.model = MModel.mstr s)
    (hs : s ≠ "")
    (hslash : strContainsChar s '/' = true) :
    ∃ res, runAdapters env m false = (res, [AdapterCall.openrouter m]) := by
  have ht : modelTruthy m.model = true := by
    rw [hmodel]
    simp [modelTruthy, bne, hs]
  have hsl : modelHasSlash m.model = true := by
    rw [hmodel]
    simpa [modelHasSlash] using hslash
  simp only [runAdapters, Bool.false_eq_true, if_false, hprov, ht, hsl, Bool.true_and,
    Bool.and_self, if_true]
  cases henv : env.openrouter m with
  | error e => exact ⟨Except.error e, by simp [henv]⟩
  | ok v =>
    by_cases hn : JsVal.isNull v = true
    · exact ⟨Except.error (JsVal.str "Could not generate answer"), by simp [henv, hn]⟩
    · exact ⟨Except.ok v, by simp [henv, hn]⟩

theorem runAdapters_ok_not_null (env : Env) (m : ModelInput) (v : JsVal)
    (calls : List AdapterCall) (h : runAdapters env m false = (Except.ok v, calls)) :
    JsVal.isNull v = false := by
  simp only [runAdapters, Bool.false_eq_true, if_false] at h
  split at h
  next e call heq =>
    exact absurd (congrArg Prod.fst h) (by simp)
  next v' call heq =>
    by_cases hn : JsVal.isNull v' = true
    · rw [if_pos hn] at h
      exact absurd (congrArg Prod.fst h) (by simp)
    · rw [if_neg hn] at h
      have hv : v' = v := by
        have := congrArg Prod.fst h
        simpa using this
      rw [← hv]
      exact Bool.not_eq_true _ ▸ (by simpa using hn)
  next heq =>
    exact absurd (congrArg Prod.fst h) (by simp)

/-! ## Claim theorems -/

/-- C1: for every request, a terminating `aiTask` run produces a value
(`Except.ok`), never a thrown exception: `ProviderFatal`-style adapter
throws and candidate-queue exhaustion are converted into an `Except.ok`
return (the returned value is `null` in those cases).  Termination is a
separate, spec-acknowledged gap (unbounded retry), so the statement is a
partial-correctness one over the fuel-indexed runs. -/
theorem dispatcher_never_throws :
    ∀ (fuel : Nat) (env : Env) (cache : Cache) (cfg : ConfigOrRole)
      (task inputs outputs outputFormat : JsVal) (localOnly : Bool) (r : RunResult),
      aiTaskFuel fuel env cache cfg task inputs outputs outputFormat localOnly = some r →
      ∃ v, r.result = Except.ok v := by
  intro fuel
  induction fuel with
  | zero =>
    intro env cache cfg task inputs outputs outputFormat localOnly r h
    exact absurd h (by simp [aiTaskFuel])
  | succ n ih =>
    intro env cache cfg task inputs outputs outputFormat localOnly r h
    simp only [aiTaskFuel] at h
    split at h
    · cases h
      exact ⟨_, rfl⟩
    · split at h
      next v calls heq =>
        cases h
        exact ⟨v, rfl⟩
      next e calls heq =>
        split at h
        next ms =>
          split at h
          · exact absurd h (by simp)
          next r' heq2 =>
            cases h
            obtain ⟨v, hv⟩ := ih _ _ _ _ _ _ _ _ _ heq2
            exact ⟨v, hv⟩
        · cases h
          exact ⟨JsVal.null, rfl⟩

/-- Witness for C1 at a concrete input: a pinned-model request against
throwing adapters terminates in one step and returns `Except.ok null`. -/
theorem dispatcher_never_throws_witness :
    (aiTaskFuel 1 envAllThrow [] (ConfigOrRole.roleStr "r") (JsVal.str "t") (JsVal.obj [])
        JsVal.null (JsVal.str "json_object") false =
      some { result := Except.ok JsVal.null, cache := [],
             calls := [AdapterCall.gemini
               { role := JsVal.str "r", task := JsVal.str "t", inputs := JsVal.obj [],
                 outputs := JsVal.null, outputFormat := JsVal.str "json_object",
                 model := MModel.undef, provider := MProvider.undef, temperature := none }] }) ∧
    ∃ v, (Except.ok JsVal.null : Except JsVal JsVal) = Except.ok v :=
  ⟨rfl, dispatcher_never_throws 1 envAllThrow [] (ConfigOrRole.roleStr "r") (JsVal.str "t")
    (JsVal.obj []) JsVal.null (JsVal.str "json_object") false _ rfl⟩

/-- C2 counterexample: a cache entry can be primed with a falsy payload
by a perfectly ordinary run — a text-format request whose backend answers
the empty string — and a second identical request then invokes a Provider
Adapter again despite the primed entry, because the hit test is a
truthiness check.  The first run stores `""` under the fingerprint; the
second run's adapter-call trace is non-empty. -/
theorem cache_primed_falsy_counterexample :
    ((aiTaskFuel 2 envTextEmpty [] (ConfigOrRole.roleStr "r") (JsVal.str "t") (JsVal.obj [])
        JsVal.null (JsVal.str "text") false).bind (fun r1 =>
      (aiTaskFuel 2 envTextEmpty r1.cache (ConfigOrRole.roleStr "r") (JsVal.str "t")
          (JsVal.obj []) JsVal.null (JsVal.str "text") false).map (fun r2 =>
        (r1.result,
         cacheGet r1.cache
           (hashQuery (normalizeInput (ConfigOrRole.roleStr "r") (JsVal.str "t") (JsVal.obj [])
             JsVal.null (JsVal.str "text")).1),
         r2.calls.map callTag))))
    = some (Except.ok (JsVal.str ""), some (JsVal.str ""), [("gemini", MModel.undef)]) := rfl

/-- C2 amended: for every request whose fingerprint has a cache entry
with a truthy payload, `aiTask` returns the cached payload immediately,
invokes no Provider Adapter, and leaves the cache unchanged. -/
theorem cache_hit_truthy_short_circuit (fuel : Nat) (env : Env) (cache : Cache)
    (cfg : ConfigOrRole) (task inputs outputs outputFormat : JsVal) (localOnly : Bool)
    (v : JsVal)
    (hget : cacheGet cache
      (hashQuery (normalizeInput cfg task inputs outputs outputFormat).1) = some v)
    (htruthy : jsTruthy v = true) :
    aiTaskFuel (fuel + 1) env cache cfg task inputs outputs outputFormat localOnly =
      some { result := Except.ok v, cache := cache, calls := [] } := by
  simp only [aiTaskFuel, hget, htruthy, if_true, Option.getD_some]

/-- Witness for C2 amended at a concrete input: a cache primed with a
truthy payload under the request's fingerprint is returned with no
adapter call. -/
theorem cache_hit_truthy_short_circuit_witness :
    (cacheGet [(hashQuery (normalizeInput (ConfigOrRole.roleStr "r") (JsVal.str "t")
        (JsVal.obj []) JsVal.null (JsVal.str "json_object")).1, JsVal.str "cached")]
      (hashQuery (normalizeInput (ConfigOrRole.roleStr "r") (JsVal.str "t") (JsVal.obj [])
        JsVal.null (JsVal.str "json_object")).1) = some (JsVal.str "cached")) ∧
    (jsTruthy (JsVal.str "cached") = true) ∧
    (aiTaskFuel 1 envAllThrow
      [(hashQuery (normalizeInput (ConfigOrRole.roleStr "r") (JsVal.str "t") (JsVal.obj [])
          JsVal.null (JsVal.str "json_object")).1, JsVal.str "cached")]
      (ConfigOrRole.roleStr "r") (JsVal.str "t") (JsVal.obj []) JsVal.null
      (JsVal.str "json_object") false =
      some { result := Except.ok (JsVal.str "cached"),
             cache := [(hashQuery (normalizeInput (ConfigOrRole.roleStr "r") (JsVal.str "t")
               (JsVal.obj []) JsVal.null (JsVal.str "json_object")).1, JsVal.str "cached")],
             calls := [] }) :=
  ⟨rfl, rfl, cache_hit_truthy_short_circuit 0 envAllThrow _ (ConfigOrRole.roleStr "r")
    (JsVal.str "t") (JsVal.obj []) JsVal.null (JsVal.str "json_object") false
    (JsVal.str "cached") rfl rfl⟩

/-- C3 counterexample: a model identifier containing the namespace
separator does NOT route to the OpenRouter adapter when `localOnly` is
set (Ollama is invoked) or when the provider is a callback (the callback
is invoked) — both hints take precedence over the separator. -/
theorem slash_routing_counterexample :
    ((aiTaskFuel 1 envTextEmpty []
        (ConfigOrRole.config { model := some (MModel.mstr "org/mod") })
        (JsVal.str "t") (JsVal.obj []) JsVal.null (JsVal.str "json_object") true).map
        (fun r => r.calls.map callTag) = some [("ollama", MModel.mstr "org/mod")]) ∧
    ((aiTaskFuel 1 envTextEmpty []
        (ConfigOrRole.config
          { model := some (MModel.mstr "org/mod"), provider := some MProvider.pcallback })
        (JsVal.str "t") (JsVal.obj []) JsVal.null (JsVal.str "json_object") false).map
        (fun r => r.calls.map callTag) = some [("callback", MModel.mstr "org/mod")]) :=
  ⟨rfl, rfl⟩

/-- C3 amended: when `localOnly` is false and the provider hint is not a
callback, an effective model identifier containing `'/'` routes the
dispatch to the OpenRouter adapter (regardless of any provider-id
string): on a cache miss, the first adapter invoked is OpenRouter with
the normalized request. -/
theorem slash_routes_openrouter (fuel : Nat) (env : Env) (cache : Cache)
    (cfg : ConfigOrRole) (task inputs outputs outputFormat : JsVal) (r : RunResult)
    (s : String)
    (hmodel : (normalizeInput cfg task inputs outputs outputFormat).1.model = MModel.mstr s)
    (hslash : strContainsChar s '/' = true)
    (hprov : isCallbackProvider
      (normalizeInput cfg task inputs outputs outputFormat).1.provider = false)
    (hmiss : cacheGet cache
      (hashQuery (normalizeInput cfg task inputs outputs outputFormat).1) = none)
    (hrun : aiTaskFuel fuel env cache cfg task inputs outputs outputFormat false = some r) :
    ∃ rest, r.calls =
      AdapterCall.openrouter (normalizeInput cfg task inputs outputs outputFormat).1 :: rest := by
  have hs : s ≠ "" := by
    intro he
    subst he
    exact absurd hslash (by decide)
  cases fuel with
  | zero => exact absurd hrun (by simp [aiTaskFuel])
  | succ n =>
    obtain ⟨res, hra⟩ := runAdapters_openrouter env
      (normalizeInput cfg task inputs outputs outputFormat).1 s hprov hmodel hs hslash
    simp only [aiTaskFuel, hmiss, Bool.false_eq_true, if_false] at hrun
    rw [hra] at hrun
    cases res with
    | ok v =>
      dsimp only at hrun
      simp only [Option.some.injEq] at hrun
      exact ⟨[], by rw [← hrun]⟩
    | error e =>
      dsimp only at hrun
      cases hrem : (normalizeInput cfg task inputs outputs outputFormat).2 with
      | none =>
        rw [hrem] at hrun
        dsimp only at hrun
        simp only [Option.some.injEq] at hrun
        exact ⟨[], by rw [← hrun]⟩
      | some ms =>
        rw [hrem] at hrun
        dsimp only at hrun
        cases hrec : aiTaskFuel n env cache
            (ConfigOrRole.config
              ((normalizeInput cfg task inputs outputs outputFormat).1.toConfig ms))
            JsVal.undef JsVal.undef JsVal.undef (JsVal.str "json_object") false with
        | none =>
          rw [hrec] at hrun
          exact absurd hrun (by simp)
        | some r' =>
          rw [hrec] at hrun
          simp only [Option.some.injEq] at hrun
          exact ⟨r'.calls, by rw [← hrun]; simp⟩

/-- Witness for C3 amended at a concrete input: a `"org/mod"` model with
no provider hint dispatches to OpenRouter first. -/
theorem slash_routes_openrouter_witness :
    ((normalizeInput (ConfigOrRole.config { model := some (MModel.mstr "org/mod") })
        (JsVal.str "t") (JsVal.obj []) JsVal.null (JsVal.str "json_object")).1.model
      = MModel.mstr "org/mod") ∧
    (strContainsChar "org/mod" '/' = true) ∧
    (∃ rest,
      ({ result := Except.ok JsVal.null, cache := [],
         calls := [AdapterCall.openrouter
           { role := JsVal.null, task := JsVal.str "t", inputs := JsVal.obj [],
             outputs := JsVal.null, outputFormat := JsVal.str "json_object",
             model := MModel.mstr "org/mod", provider := MProvider.undef,
             temperature := none }] } : RunResult).calls =
        AdapterCall.openrouter
          (normalizeInput (ConfigOrRole.config { model := some (MModel.mstr "org/mod") })
            (JsVal.str "t") (JsVal.obj []) JsVal.null (JsVal.str "json_object")).1 :: rest) :=
  ⟨rfl, rfl,
    slash_routes_openrouter 1 envAllThrow [] (ConfigOrRole.config
        { model := some (MModel.mstr "org/mod") })
      (JsVal.str "t") (JsVal.obj []) JsVal.null (JsVal.str "json_object") _ "org/mod"
      rfl rfl rfl rfl rfl⟩

/-- C7 counterexample: a rate-limited explicit-array candidate does NOT
cause advancement to the next candidate.  The dispatcher shifts the head
candidate A off the array and hands it to `callGemini` as a pinned
scalar, and `callGemini`'s pinned branch catches the 429 itself, sleeps
`rateLimitRetryDelay(error) + 1000` ms and retries the SAME candidate
(src/utils/LLMAPI/gemini.js lines 186-198) — it never throws a
rate-limit error to the dispatcher.  Concretely, against a backend that
rate-limits the first two wire calls (hint `5s`) and then succeeds: the
controller run for pinned `"A"` makes three wire calls, all to model A,
with two 6250 ms backoffs, and returns A's payload; and with that very
controller in the dispatcher's Gemini slot, the run for
`model = ["A", "B", "C"]` performs exactly ONE adapter invocation
(candidate A) and returns A's payload — B and C are never invoked, not
the claimed A, B, C-each-exactly-once trace ending in C's payload. -/
theorem queue_rate_limited_stalls_counterexample :
    ((callGeminiFuel 10 genvRateLimitTwice 0 0 (JsVal.str "r") (JsVal.str "t")
        (JsVal.obj []) (JsVal.str "out") (JsVal.str "json_object") tempDefault
        (some "A") false false).map
      (fun r => (wireModels r.events, sleepsOf r.events, r.result))
      = some (["A", "A", "A"], [some 6250, some 6250], Except.ok (JsVal.obj []))) ∧
    ((aiTaskFuel 4 envQueueRateLimited [] cfgQueueOrder (JsVal.str "t") (JsVal.obj [])
        (JsVal.str "out") (JsVal.str "json_object") false).map
      (fun r => (r.calls.map callTag, r.result))
      = some ([("gemini", MModel.mstr "A")], Except.ok (JsVal.obj []))) :=
  ⟨rfl, rfl⟩

/-- C7 (amended): explicit candidate arrays are consumed strictly
front-to-back and never reordered, but the dispatcher advances past a
candidate only on a Fatal outcome — a thrown error or a `null` adapter
result — never on RateLimited.  First: with the embedded Gemini
controller in the dispatcher's adapter slot, over a backend whose models
A and B always fail with an unknown error (which `callGeminiModel`'s
outer catch converts to a `null` return, making the dispatcher throw
`Could not generate answer` and advance) and whose model C succeeds, the
run for `model = ["A", "B", "C"]` invokes the Gemini adapter strictly in
order A, B, C, each exactly once, and returns C's payload.  Second:
under persistent rate limiting the pinned head candidate is instead
retried in place forever — for every fuel bound, wire counter and cursor
the controller run for pinned `"A"` fails to terminate — so control
never returns to the dispatcher and the later candidates are never
invoked. -/
theorem queue_order_fatal_candidates :
    ((aiTaskFuel 4 envQueueFatal [] cfgQueueOrder (JsVal.str "t") (JsVal.obj [])
        (JsVal.str "out") (JsVal.str "json_object") false).map
      (fun r => (r.calls.map callTag, r.result))
      = some ([("gemini", MModel.mstr "A"), ("gemini", MModel.mstr "B"),
               ("gemini", MModel.mstr "C")],
              Except.ok (JsVal.obj []))) ∧
    (∀ (fuel k gcur : Nat),
      callGeminiFuel fuel genvAlways429 k gcur (JsVal.str "r") (JsVal.str "t")
        (JsVal.obj []) (JsVal.str "out") (JsVal.str "json_object") tempDefault
        (some "A") false false = none) := by
  refine ⟨rfl, ?_⟩
  intro fuel
  induction fuel with
  | zero => intro k gcur; rfl
  | succ f ih =>
    intro k gcur
    have hmod : ∃ req : GenRequest,
        callGeminiModelFuel (Nat.succ f) genvAlways429 k (JsVal.str "r") (JsVal.str "t")
          (JsVal.obj []) (JsVal.str "out") (JsVal.str "json_object") tempDefault
          (some "A") 0 0 false
        = some (Except.error
                  (GemThrow.api { status := some 429, errorDetails := none }),
                k + 1, [GEvent.wire req]) := ⟨_, rfl⟩
    obtain ⟨req, hreq⟩ := hmod
    have hrl : isRateLimitError
        (GemThrow.api { status := some 429, errorDetails := none }) = true := rfl
    simp only [callGeminiFuel, Option.isSome_some, Bool.true_or, if_true, hreq, hrl, ih]

/-- Witness for C7 amended at a concrete state: with fuel 5 and fresh
wire counter and cursor, the persistently rate-limited pinned head
candidate's controller run does not terminate. -/
theorem queue_order_fatal_candidates_witness :
    callGeminiFuel 5 genvAlways429 0 0 (JsVal.str "r") (JsVal.str "t")
      (JsVal.obj []) (JsVal.str "out") (JsVal.str "json_object") tempDefault
      (some "A") false false = none :=
  queue_order_fatal_candidates.2 5 0 0

/-- C8 counterexample: on the `localOnly` path the dispatcher skips the
null check (it sits in the non-local branch only), so an Ollama failure —
here an unreachable chat backend, whose `callOllama` catch returns
`null` — is written to the cache: the run returns `null` AND leaves a
`fingerprint ↦ null` cache entry, where the claim requires the cache to
be unchanged on every non-success outcome. -/
theorem cache_null_write_counterexample :
    (aiTaskFuel 2 envLocalNull [] (ConfigOrRole.roleStr "r") (JsVal.str "t") (JsVal.obj [])
        JsVal.null (JsVal.str "json_object") true).map (fun r => (r.result, r.cache))
    = some (Except.ok JsVal.null,
        [(hashQuery (normalizeInput (ConfigOrRole.roleStr "r") (JsVal.str "t") (JsVal.obj [])
            JsVal.null (JsVal.str "json_object")).1, JsVal.null)]) := rfl

/-- C8 amended: on the non-local path (`localOnly = false`, which every
recursive fallback call also uses), a terminating run changes the cache
at a fingerprint only by storing a non-null value that the run itself
returns; every other fingerprint is untouched. -/
theorem cache_write_only_success_nonlocal :
    ∀ (fuel : Nat) (env : Env) (cache : Cache) (cfg : ConfigOrRole)
      (task inputs outputs outputFormat : JsVal) (r : RunResult),
      aiTaskFuel fuel env cache cfg task inputs outputs outputFormat false = some r →
      ∀ f, cacheGet r.cache f = cacheGet cache f ∨
        ∃ v, JsVal.isNull v = false ∧ cacheGet r.cache f = some v ∧
          r.result = Except.ok v := by
  intro fuel
  induction fuel with
  | zero =>
    intro env cache cfg task inputs outputs outputFormat r h
    exact absurd h (by simp [aiTaskFuel])
  | succ n ih =>
    intro env cache cfg task inputs outputs outputFormat r h f
    simp only [aiTaskFuel] at h
    split at h
    · simp only [Option.some.injEq] at h
      left
      rw [← h]
    · rcases hra : runAdapters env (normalizeInput cfg task inputs outputs outputFormat).1 false
        with ⟨res, calls⟩
      rw [hra] at h
      cases res with
      | ok v =>
        dsimp only at h
        simp only [Option.some.injEq] at h
        have hv := runAdapters_ok_not_null env _ v calls hra
        rw [← h]
        dsimp only
        rw [cacheGet_cacheSet]
        by_cases hf : hashQuery (normalizeInput cfg task inputs outputs outputFormat).1 = f
        · right
          exact ⟨v, hv, by rw [if_pos hf], rfl⟩
        · left
          rw [if_neg hf]
      | error e =>
        dsimp only at h
        cases hrem : (normalizeInput cfg task inputs outputs outputFormat).2 with
        | none =>
          rw [hrem] at h
          dsimp only at h
          simp only [Option.some.injEq] at h
          left
          rw [← h]
        | some ms =>
          rw [hrem] at h
          dsimp only at h
          cases hrec : aiTaskFuel n env cache
              (ConfigOrRole.config
                ((normalizeInput cfg task inputs outputs outputFormat).1.toConfig ms))
              JsVal.undef JsVal.undef JsVal.undef (JsVal.str "json_object") false with
          | none =>
            rw [hrec] at h
            exact absurd h (by simp)
          | some r' =>
            rw [hrec] at h
            dsimp only at h
            simp only [Option.some.injEq] at h
            have hrecp := ih env cache
              (ConfigOrRole.config
                ((normalizeInput cfg task inputs outputs outputFormat).1.toConfig ms))
              JsVal.undef JsVal.undef JsVal.undef (JsVal.str "json_object") r' hrec f
            rw [← h]
            dsimp only
            rcases hrecp with hl | ⟨v, hv1, hv2, hv3⟩
            · left
              exact hl
            · right
              exact ⟨v, hv1, hv2, hv3⟩

/-- Witness for C8 amended at a concrete input: a non-local run whose
single candidate throws leaves the cache untouched at any fingerprint. -/
theorem cache_write_only_success_nonlocal_witness :
    let mW : ModelInput :=
      { role := JsVal.str "r", task := JsVal.str "t", inputs := JsVal.obj [],
        outputs := JsVal.null, outputFormat := JsVal.str "json_object",
        model := MModel.undef, provider := MProvider.undef, temperature := none }
    let rW : RunResult :=
      { result := Except.ok JsVal.null, cache := [], calls := [AdapterCall.gemini mW] }
    (aiTaskFuel 1 envAllThrow [] (ConfigOrRole.roleStr "r") (JsVal.str "t") (JsVal.obj [])
        JsVal.null (JsVal.str "json_object") false = some rW) ∧
    (cacheGet rW.cache "k" = cacheGet ([] : Cache) "k" ∨
      ∃ v, JsVal.isNull v = false ∧ cacheGet rW.cache "k" = some v ∧
        rW.result = Except.ok v) := by
  refine ⟨rfl, ?_⟩
  exact cache_write_only_success_nonlocal 1 envAllThrow [] (ConfigOrRole.roleStr "r")
    (JsVal.str "t") (JsVal.obj []) JsVal.null (JsVal.str "json_object") _ rfl "k"

/-- C4 (code bug): against a backend that always returns unparsable text,
a structured (`json_object`) call performs exactly ONE parse attempt and
resolves to `null` — not the four attempts the spec (and the source's own
`retry max 3 times` comment and `JSONErrorRetry > 3` counter) intend: in
the source, `JSON.parse` sits outside the inner
`try { return output } catch (JSONError)` block, whose body cannot throw,
so the retry catch is dead code and the `SyntaxError` falls straight to
the outer catch's unknown-error branch, which returns `null`. -/
theorem malformed_output_single_parse_attempt :
    (callGeminiModelFuel 10 genvUnparsable 0 JsVal.null (JsVal.str "t") (JsVal.obj [])
        (JsVal.str "out") (JsVal.str "json_object") tempDefault (some "gemini-2.5-flash")
        0 0 false).map (fun p => (p.1, p.2.1, parseCount p.2.2, wireModels p.2.2))
    = some (Except.ok JsVal.null, 1, 1, ["gemini-2.5-flash"]) := rfl

/-- C5 counterexample: a single pinned candidate rate-limited with the
retry hint `5s` sleeps 6250 ms (the parsed hint `5 × 1000 + 250` from
`rateLimitRetryDelay`, plus the caller's fixed `+ 1000`), then retries
the same candidate — NOT the `max(5, 30) + ≈0.25` seconds (30250 ms) the
claim states: the code has no `max` with 30; the constant 30 is only the
fallback when no hint parses, and the fixed addition is 1250 ms, not
250 ms. -/
theorem pinned_rate_limit_sleep_counterexample :
    (((callGeminiFuel 10 genvRateLimitOnce 0 0 JsVal.null (JsVal.str "t") (JsVal.obj [])
        (JsVal.str "out") (JsVal.str "json_object") tempDefault (some "modelA") false
        false).map (fun r => (r.result, wireModels r.events, sleepsOf r.events)))
      = some (Except.ok (JsVal.obj []), ["modelA", "modelA"], [some 6250])) ∧
    ((6250 : Int) < 30250) :=
  ⟨rfl, by decide⟩

/-- C5 amended: when a single pinned candidate is rate-limited once and
then succeeds, the controller sleeps `rateLimitRetryDelay(error) + 1000`
milliseconds — that is, `hint × 1000 + 250 + 1000` when a retry hint is
present, `30 × 1000 + 250 + 1000` when none is — and then retries the
SAME candidate; the run's two wire calls carry the same request and no
other model is contacted. -/
theorem pinned_rate_limit_retry (fuel : Nat) (genv : GEnv) (k gcur : Nat)
    (role task inputs outputs outputFormat temperature : JsVal) (mdl : String)
    (bm : Bool) (e : GemError) (d : Int) (resp : GenResp) (v : JsVal) (b : Bool)
    (hgen0 : ∀ q, genv.gen k q = Except.error e)
    (he : e.status = some 429)
    (hd : rateLimitRetryDelayMs e = some d)
    (hgen1 : ∀ q, genv.gen (k + 1) q = Except.ok resp)
    (hparse : jsonParseOpt resp.text = some v)
    (hof : isJsonObjectFormat outputFormat = true)
    (hsch : outputsIsSchemaType outputs = Except.ok b) :
    ∃ req : GenRequest,
      callGeminiFuel (fuel + 2) genv k gcur role task inputs outputs outputFormat
        temperature (some mdl) bm false =
        some { result := Except.ok v, wireCount := k + 2, cursor := gcur,
               events := [GEvent.wire req, GEvent.sleep (some (d + 1000)),
                          GEvent.wire req, GEvent.parse resp.text] } ∧
      req.model = mdl := by
  have hrl : isRateLimitError (GemThrow.api e) = true := by
    simp [isRateLimitError, GemThrow.statusOf, he]
  have hst : (GemThrow.api e).statusOf == some 429 := by
    simp [GemThrow.statusOf, he]
  simp only [callGeminiFuel, callGeminiModelFuel, hsch, hgen0, hgen1, hparse, hof, hrl, hst,
    he, hd, rateLimitRetryDelayMsT, Option.isSome_some, Bool.true_or, if_true,
    Option.map_some, Bool.false_eq_true, if_false]
  exact ⟨_, rfl, rfl⟩

/-- Witness for C5 amended at a concrete input: hint `5s`, one
rate-limited call, then `"{}"`; the sleep is 6250 ms and both wire calls
go to `modelA`. -/
theorem pinned_rate_limit_retry_witness :
    ((∀ q, genvRateLimitOnce.gen 0 q = Except.error rlHint5) ∧
     rlHint5.status = some 429 ∧
     rateLimitRetryDelayMs rlHint5 = some 5250 ∧
     (∀ q, genvRateLimitOnce.gen 1 q =
       Except.ok { text := "{}", usageMetadata := JsVal.undef }) ∧
     jsonParseOpt "{}" = some (JsVal.obj []) ∧
     isJsonObjectFormat (JsVal.str "json_object") = true ∧
     outputsIsSchemaType (JsVal.str "out") = Except.ok false) ∧
    (∃ req : GenRequest,
      callGeminiFuel 10 genvRateLimitOnce 0 0 JsVal.null (JsVal.str "t") (JsVal.obj [])
        (JsVal.str "out") (JsVal.str "json_object") tempDefault (some "modelA") false
        false =
        some { result := Except.ok (JsVal.obj []), wireCount := 2, cursor := 0,
               events := [GEvent.wire req, GEvent.sleep (some 6250),
                          GEvent.wire req, GEvent.parse "{}"] } ∧
      req.model = "modelA") :=
  ⟨⟨fun _ => rfl, rfl, rfl, fun _ => rfl, rfl, rfl, rfl⟩,
   pinned_rate_limit_retry 8 genvRateLimitOnce 0 0 JsVal.null (JsVal.str "t")
     (JsVal.obj []) (JsVal.str "out") (JsVal.str "json_object") tempDefault "modelA"
     false rlHint5 5250 { text := "{}", usageMetadata := JsVal.undef } (JsVal.obj [])
     false (fun _ => rfl) rfl rfl (fun _ => rfl) rfl rfl rfl⟩

/-- C6 (code bug): the module variable `lastRateLimitedGeminiModelIndex`
is declared (initialized to 0) and read as the walk's starting index, but
the source never assigns it, so the rate-limit cursor never advances: in
a first default-list call the cheapest model is rate-limited and the walk
moves on to the second model (the per-call advancement works), yet the
cursor after the call is still 0 and a second call in the same process
contacts the already-exhausted cheapest model again, where the claim
requires it to be skipped. -/
theorem rate_limit_cursor_not_persisted :
    ((callGeminiFuel 10 genvCheapRateLimited 0 0 JsVal.null (JsVal.str "t") (JsVal.obj [])
        (JsVal.str "out") (JsVal.str "json_object") tempDefault none false false).bind
      (fun r1 =>
        (callGeminiFuel 10 genvCheapRateLimited r1.wireCount r1.cursor JsVal.null
            (JsVal.str "t") (JsVal.obj []) (JsVal.str "out") (JsVal.str "json_object")
            tempDefault none false false).map (fun r2 =>
          (wireModels r1.events, r1.cursor, wireModels r2.events))))
    = some (["gemini-3-flash", "gemini-2.5-flash"], 0,
            ["gemini-3-flash", "gemini-2.5-flash"]) := rfl

/-- C9 counterexample: the Message Builder mutates the caller's inputs
mapping.  With an image list, every entry is overwritten by its encoding
and the `images` key is then deleted, so a mapping
`{images: ["p.jpg"], a: 1}` comes back as `{a: 1}`; with a raw message
list, the last message object is mutated by attaching an `images` member.
The claim's "inputs left unchanged" fails on both reserved entries. -/
theorem message_builder_mutation_counterexample :
    ((createOllamaMessages (fun _ => "ENC") ollamaImageMessageBuilder JsVal.null
        (JsVal.str "t")
        (JsVal.obj [("images", JsVal.arr [JsVal.str "p.jpg"]), ("a", JsVal.num 1)])
        JsVal.null (JsVal.str "text") false).map (fun r => r.inputsAfter)
      = Except.ok (JsVal.obj [("a", JsVal.num 1)])) ∧
    (lookupField [("images", JsVal.arr [JsVal.str "p.jpg"]), ("a", JsVal.num 1)] "images"
      = some (JsVal.arr [JsVal.str "p.jpg"])) ∧
    ((createOllamaMessages (fun _ => "ENC") ollamaImageMessageBuilder (JsVal.str "sys")
        (JsVal.str "t")
        (JsVal.obj [("messages", JsVal.arr
          [JsVal.obj [("role", JsVal.str "assistant"), ("content", JsVal.str "x")]])])
        JsVal.null (JsVal.str "text") false).map (fun r => r.inputsAfter)
      = Except.ok (JsVal.obj [("messages", JsVal.arr
          [JsVal.obj [("role", JsVal.str "assistant"), ("content", JsVal.str "x"),
                      ("images", JsVal.arr [])]])])) :=
  ⟨rfl, rfl, rfl⟩

/-- C9 amended: the Message Builder computes the ordered message list as
a function of its arguments, but it mutates the caller's inputs mapping
whenever one of the two reserved entries is present (image-list entries
are replaced by their encodings and the key deleted; the final raw
message object receives an `images` member).  In the absence of both
reserved keys, a returning call leaves the inputs mapping unchanged and
takes the synthesized-single-turn path. -/
theorem message_builder_frame_no_reserved_keys (b64 : JsVal → String)
    (imb : String → List JsVal → JsVal) (role task : JsVal)
    (fs : List (String × JsVal)) (outputs outputFormat : JsVal) (ujs : Bool)
    (r : MessagesResult)
    (himg : lookupField fs "images" = none)
    (hmsg : lookupField fs "messages" = none)
    (hrun : createOllamaMessages b64 imb role task (JsVal.obj fs) outputs outputFormat ujs
      = Except.ok r) :
    r.inputsAfter = JsVal.obj fs ∧ r.returnWholeMessage = false := by
  simp only [createOllamaMessages, himg, hmsg, bind, Except.bind] at hrun
  repeat' split at hrun
  all_goals
    first
      | exact Except.noConfusion hrun
      | (simp only [Except.ok.injEq] at hrun
         exact ⟨by rw [← hrun], by rw [← hrun]⟩)

/-- Witness for C9 amended at a concrete input: a mapping with no
reserved keys is returned unchanged. -/
theorem message_builder_frame_witness :
    let rW : MessagesResult :=
      { messages := [ollamaImageMessageBuilder
          (buildPrompt (JsVal.str "t") (JsVal.obj [("a", JsVal.num 1)])
            (JsVal.str "") false) []],
        returnWholeMessage := false, isSchemaType := false, schema := JsVal.null,
        inputsAfter := JsVal.obj [("a", JsVal.num 1)] }
    (lookupField [("a", JsVal.num 1)] "images" = none) ∧
    (lookupField [("a", JsVal.num 1)] "messages" = none) ∧
    (createOllamaMessages (fun _ => "ENC") ollamaImageMessageBuilder JsVal.null
      (JsVal.str "t") (JsVal.obj [("a", JsVal.num 1)]) JsVal.null (JsVal.str "text")
      false = Except.ok rW) ∧
    (rW.inputsAfter = JsVal.obj [("a", JsVal.num 1)] ∧ rW.returnWholeMessage = false) := by
  refine ⟨rfl, rfl, rfl, ?_⟩
  exact message_builder_frame_no_reserved_keys (fun _ => "ENC") ollamaImageMessageBuilder
    JsVal.null (JsVal.str "t") [("a", JsVal.num 1)] JsVal.null (JsVal.str "text") false
    _ rfl rfl rfl

/-! ## Lemmas for the schema-compiler claim -/

theorem strToList_append (a b : String) : (a ++ b).toList = a.toList ++ b.toList := by
  cases a
  cases b
  rfl

theorem strMk_toList (s : String) : String.mk s.toList = s := by
  cases s
  rfl

theorem splitCharsOn_no_sep (sep : Char) (b : List Char) (h : b.contains sep = false) :
    splitCharsOn sep b = [b] := by
  induction b with
  | nil => rfl
  | cons c t ih =>
    simp only [List.contains_cons, Bool.or_eq_false_iff] at h
    have hc : ¬ c = sep := by
      intro he
      subst he
      simp at h
    simp only [splitCharsOn, if_neg hc, ih h.2]

theorem splitCharsOn_head_sep (sep : Char) (a b : List Char) (ha : a.contains sep = false) :
    splitCharsOn sep (a ++ sep :: b) = a :: splitCharsOn sep b := by
  induction a with
  | nil => simp [splitCharsOn]
  | cons c t ih =>
    simp only [List.contains_cons, Bool.or_eq_false_iff] at ha
    have hc : ¬ c = sep := by
      intro he
      subst he
      simp at ha
    simp only [List.cons_append, splitCharsOn, if_neg hc, List.append_eq]
    rw [ih ha.2]

theorem trimChars_cons_space (cs : List Char) :
    trimChars (' ' :: cs) = trimChars cs := by
  simp [trimChars, List.dropWhile, wsCharB]

/-- The optional-string descriptor `"String optional | d"` (for an
already-trimmed, pipe-free, non-empty description `d`) parses to the Zod
schema `z.string().optional().nullable().describe(d)`. -/
theorem parseStringDescription_optional_string (d : String)
    (hpipe : d.toList.contains '|' = false)
    (htrim : trimChars d.toList = d.toList)
    (hne : d ≠ "") :
    parseStringDescription ("String optional | " ++ d) =
      Except.ok (ZType.zdescribe (ZType.znullable (ZType.zoptional ZType.zstring)) d) := by
  have hchars : ("String optional | " ++ d).toList =
      "String optional ".toList ++ '|' :: (' ' :: d.toList) := by
    rw [strToList_append]
    show "String optional ".toList ++ ['|', ' '] ++ d.toList = _
    simp [List.append_assoc]
  have hpre : ("String optional ".toList).contains '|' = false := by decide
  have hpost : (' ' :: d.toList).contains '|' = false := by
    simp only [List.contains_cons, Bool.or_eq_false_iff]
    exact ⟨by decide, hpipe⟩
  have hsplit : splitCharsOn '|' (("String optional | " ++ d).toList) =
      ["String optional ".toList, ' ' :: d.toList] := by
    rw [hchars, splitCharsOn_head_sep '|' _ _ hpre, splitCharsOn_no_sep '|' _ hpost]
  have hinc : strIncludes ("String optional | " ++ d) "|" = true := by
    have : charsContainsSub (("String optional | " ++ d).toList) ['|'] = true := by
      rw [hchars]
      have : ∀ cs rest : List Char, charsContainsSub (cs ++ '|' :: rest) ['|'] = true := by
        intro cs
        induction cs with
        | nil => intro rest; simp [charsContainsSub, charsStartsWith]
        | cons x xs ih => intro rest; simp [charsContainsSub, ih rest]
      exact this _ _
    simpa [strIncludes] using this
  have htrimmed : jsTrim (String.mk (' ' :: d.toList)) = d := by
    show String.mk (trimChars ((String.mk (' ' :: d.toList)).toList)) = d
    have : (String.mk (' ' :: d.toList)).toList = ' ' :: d.toList := rfl
    rw [this, trimChars_cons_space, htrim, strMk_toList]
  have hparts : (jsSplit ("String optional | " ++ d) '|').map jsTrim =
      ["String optional", d] := by
    simp only [jsSplit, hsplit, List.map_cons, List.map_nil]
    rw [strMk_toList]
    rw [htrimmed]
    have : jsTrim "String optional " = "String optional" := by decide
    rw [this]
  have hdne : (d == "") = false := by
    simp [hne]
  have hbody : parseStringDescriptionParts ["String optional", d] =
      Except.ok (ZType.zdescribe (ZType.znullable (ZType.zoptional ZType.zstring)) d) := by
    simp only [parseStringDescriptionParts, List.headD_cons, hdne]
    have hlow : jsToLower "String optional" = "string optional" := by decide
    have hlne : ("string optional" == "") = false := by decide
    simp only [hlow, hlne, Bool.false_eq_true, if_false]
    have hopt : strIncludes "string optional" " optional" = true := by decide
    simp only [hopt, if_true]
    have htype1 : jsTrim (strReplaceFirst "string optional" " optional" "") = "string" := by
      decide
    simp only [htype1]
    have hnum : (jsToLower "string" == "number") = false := by decide
    have hbool : (jsToLower "string" == "boolean") = false := by decide
    have hnam : (jsToLower "string" == "naming") = false := by decide
    have hpar : (jsToLower "string" == "paragraph") = false := by decide
    have henum : (jsToLower "string" == "enum") = false := by decide
    simp only [hnum, hbool, hnam, hpar, henum, Bool.false_eq_true, if_false, hdne]
  rw [parseStringDescription, if_pos hinc, hparts, hbody]

theorem convertFields_keys (fs : List (String × JsVal)) (zfs : List (String × ZType))
    (hok : convertFields fs = Except.ok zfs) :
    zfs.map Prod.fst = fs.map Prod.fst := by
  induction fs generalizing zfs with
  | nil =>
    simp only [convertFields, Except.ok.injEq] at hok
    rw [← hok]
    rfl
  | cons p rest ih =>
    obtain ⟨k', v⟩ := p
    simp only [convertFields] at hok
    rcases hzv : convertFieldValue v with e | z0
    · rw [hzv] at hok
      exact Except.noConfusion hok
    · rw [hzv] at hok
      dsimp only at hok
      rcases hrest : convertFields rest with e | zrest
      · rw [hrest] at hok
        exact Except.noConfusion hok
      · rw [hrest] at hok
        dsimp only at hok
        simp only [Except.ok.injEq] at hok
        rw [← hok]
        simp [ih zrest hrest]

theorem convertFields_lookup (fs : List (String × JsVal)) (zfs : List (String × ZType))
    (k s : String)
    (hok : convertFields fs = Except.ok zfs)
    (hmem : lookupField fs k = some (JsVal.str s)) :
    ∃ zt, parseStringDescription s = Except.ok zt ∧ lookupZ zfs k = some zt := by
  induction fs generalizing zfs with
  | nil => exact absurd hmem (by simp [lookupField])
  | cons p rest ih =>
    obtain ⟨k', v⟩ := p
    simp only [convertFields] at hok
    rcases hzv : convertFieldValue v with e | z0
    · rw [hzv] at hok
      exact Except.noConfusion hok
    · rw [hzv] at hok
      dsimp only at hok
      rcases hrest : convertFields rest with e | zrest
      · rw [hrest] at hok
        exact Except.noConfusion hok
      · rw [hrest] at hok
        dsimp only at hok
        simp only [Except.ok.injEq] at hok
        by_cases hk : k' = k
        · subst hk
          simp only [lookupField, eq_self_iff_true, if_true, Option.some.injEq] at hmem
          subst hmem
          refine ⟨z0, ?_, ?_⟩
          · simp only [convertFieldValue] at hzv
            exact hzv
          · rw [← hok]
            simp [lookupZ]
        · simp only [lookupField, if_neg hk] at hmem
          obtain ⟨zt, h1, h2⟩ := ih zrest hrest hmem
          refine ⟨zt, h1, ?_⟩
          rw [← hok]
          simp [lookupZ, if_neg hk, h2]

theorem mem_requiredKeys_mem_keys (zfs : List (String × ZType)) (x : String)
    (hx : x ∈ zodRequiredKeys zfs) : x ∈ zfs.map Prod.fst := by
  induction zfs with
  | nil => simp [zodRequiredKeys] at hx
  | cons p rest ih =>
    obtain ⟨k', t⟩ := p
    simp only [zodRequiredKeys] at hx
    split at hx
    · simp [ih hx]
    · rcases List.mem_cons.mp hx with h | h
      · simp [h]
      · simp [ih h]

theorem optional_not_mem_requiredKeys (zfs : List (String × ZType)) (k : String)
    (zt : ZType) (hnodup : (zfs.map Prod.fst).Nodup)
    (hlk : lookupZ zfs k = some zt) (hopt : zIsOptionalQ zt = true) :
    k ∉ zodRequiredKeys zfs := by
  induction zfs with
  | nil => simp [zodRequiredKeys]
  | cons p rest ih =>
    obtain ⟨k', t⟩ := p
    simp only [List.map_cons, List.nodup_cons] at hnodup
    by_cases hk : k' = k
    · subst hk
      simp only [lookupZ, eq_self_iff_true, if_true, Option.some.injEq] at hlk
      subst hlk
      simp only [zodRequiredKeys, hopt, if_true]
      intro hmem
      exact hnodup.1 (mem_requiredKeys_mem_keys rest k' hmem)
    · simp only [lookupZ, if_neg hk] at hlk
      simp only [zodRequiredKeys]
      split
      · exact ih hnodup.2 hlk
      · intro hmem
        rcases List.mem_cons.mp hmem with h | h
        · exact hk h.symm
        · exact ih hnodup.2 hlk h

theorem lookup_zodFieldsToJSON (zfs : List (String × ZType)) (k : String) (zt : ZType)
    (hlk : lookupZ zfs k = some zt) :
    lookupField (zodFieldsToJSON zfs) k = some (zodToJSONSchema zt) := by
  induction zfs with
  | nil => exact absurd hlk (by simp [lookupZ])
  | cons p rest ih =>
    obtain ⟨k', t⟩ := p
    by_cases hk : k' = k
    · subst hk
      simp only [lookupZ, eq_self_iff_true, if_true, Option.some.injEq] at hlk
      subst hlk
      simp [zodFieldsToJSON, lookupField]
    · simp only [lookupZ, if_neg hk] at hlk
      simp [zodFieldsToJSON, lookupField, if_neg hk, ih hlk]

/-- C10: for every plain parent object descriptor (unique keys, not a
record) containing a field whose value is the string
`"String optional | d"` — `d` a trimmed, pipe-free, non-empty description
— the compiled JSON Schema gives that field the nullable-string union
`anyOf [string, null]` carrying description `d`, and the field is
excluded from the parent's `required` list. -/
theorem optional_string_field_schema (fs : List (String × JsVal)) (k d : String)
    (doc : JsVal)
    (hnodup : (fs.map Prod.fst).Nodup)
    (hrec : jsTruthy ((lookupField fs "__is_record").getD JsVal.undef) = false)
    (hmem : lookupField fs k = some (JsVal.str ("String optional | " ++ d)))
    (hpipe : d.toList.contains '|' = false)
    (htrim : trimChars d.toList = d.toList)
    (hne : d ≠ "")
    (hcompile : createJSONSchemaE (JsVal.obj fs) = Except.ok doc) :
    (∃ props : List (String × JsVal),
      (match doc with
       | JsVal.obj dfs => lookupField dfs "properties"
       | _ => none) = some (JsVal.obj props) ∧
      lookupField props k = some (JsVal.obj
        [("description", JsVal.str d),
         ("anyOf", JsVal.arr [JsVal.obj [("type", JsVal.str "string")],
                              JsVal.obj [("type", JsVal.str "null")]])])) ∧
    (∀ req : List JsVal,
      (match doc with
       | JsVal.obj dfs => lookupField dfs "required"
       | _ => none) = some (JsVal.arr req) → JsVal.str k ∉ req) := by
  simp only [createJSONSchemaE, convertToZod, hrec, Bool.false_eq_true, if_false] at hcompile
  rcases hcf : convertFields fs with e | zfs
  · rw [hcf] at hcompile
    exact Except.noConfusion hcompile
  · rw [hcf] at hcompile
    simp only [Except.ok.injEq] at hcompile
    obtain ⟨zt, hpsd, hlkz⟩ := convertFields_lookup fs zfs k _ hcf hmem
    rw [parseStringDescription_optional_string d hpipe htrim hne] at hpsd
    have hzt : zt = ZType.zdescribe (ZType.znullable (ZType.zoptional ZType.zstring)) d := by
      simpa using hpsd.symm
    subst hzt
    have hprops := lookup_zodFieldsToJSON zfs k _ hlkz
    have hnodupz : (zfs.map Prod.fst).Nodup := by
      rw [convertFields_keys fs zfs hcf]
      exact hnodup
    have hnreq : k ∉ zodRequiredKeys zfs :=
      optional_not_mem_requiredKeys zfs k _ hnodupz hlkz rfl
    subst hcompile
    constructor
    · refine ⟨zodFieldsToJSON zfs, ?_, ?_⟩
      · simp only [zodToJSONSchema]
        split
        · simp [lookupField]
        · simp [lookupField]
      · rw [hprops]
        rfl
    · intro req hreq
      simp only [zodToJSONSchema] at hreq
      split at hreq
      next hemp => simp [lookupField] at hreq
      next hemp =>
        simp only [lookupField] at hreq
        have : ("type" = "required") = False := by simp
        rw [eq_iff_iff] at this
        simp only [if_neg (by simp : ¬ ("type" : String) = "required"),
          if_neg (by simp : ¬ ("properties" : String) = "required"),
          eq_self_iff_true, if_true, Option.some.injEq, JsVal.arr.injEq] at hreq
        rw [← hreq]
        intro hmemreq
        rcases List.mem_map.mp hmemreq with ⟨x, hx1, hx2⟩
        have : x = k := by
          injection hx2
        exact hnreq (this ▸ hx1)

/-- Witness for C10 at the repository's own test input
(`simpleTest.js`, "Optional String Type"): the single optional-string
field compiles to the described nullable-string union and the `required`
list is absent. -/
theorem optional_string_field_schema_witness :
    let fsW : List (String × JsVal) :=
      [("myOptionalString", JsVal.str "String optional | An optional string field")]
    let docW : JsVal :=
      JsVal.obj [("type", JsVal.str "object"),
        ("properties", JsVal.obj [("myOptionalString", JsVal.obj
          [("description", JsVal.str "An optional string field"),
           ("anyOf", JsVal.arr [JsVal.obj [("type", JsVal.str "string")],
                                JsVal.obj [("type", JsVal.str "null")]])])])]
    ((List.map Prod.fst fsW).Nodup ∧
     jsTruthy ((lookupField fsW "__is_record").getD JsVal.undef) = false ∧
     lookupField fsW "myOptionalString" =
       some (JsVal.str ("String optional | " ++ "An optional string field")) ∧
     createJSONSchemaE (JsVal.obj fsW) = Except.ok docW) ∧
    ((∃ props : List (String × JsVal),
      (match docW with
       | JsVal.obj dfs => lookupField dfs "properties"
       | _ => none) = some (JsVal.obj props) ∧
      lookupField props "myOptionalString" = some (JsVal.obj
        [("description", JsVal.str "An optional string field"),
         ("anyOf", JsVal.arr [JsVal.obj [("type", JsVal.str "string")],
                              JsVal.obj [("type", JsVal.str "null")]])])) ∧
    (∀ req : List JsVal,
      (match docW with
       | JsVal.obj dfs => lookupField dfs "required"
       | _ => none) = some (JsVal.arr req) → JsVal.str "myOptionalString" ∉ req)) := by
  intro fsW docW
  have hpsd := parseStringDescription_optional_string "An optional string field"
    (by decide) (by decide) (by decide)
  have hlit : ("String optional | An optional string field" : String) =
      "String optional | " ++ "An optional string field" := rfl
  have hcf : convertFields [("myOptionalString",
      JsVal.str "String optional | An optional string field")] =
      Except.ok [("myOptionalString", ZType.zdescribe
        (ZType.znullable (ZType.zoptional ZType.zstring))
        "An optional string field")] := by
    simp only [convertFields, convertFieldValue, hlit, hpsd]
  have hc1 : jsTruthy ((lookupField [("myOptionalString",
      JsVal.str "String optional | An optional string field")] "__is_record").getD
      JsVal.undef) = false := rfl
  have hcz : convertToZod (JsVal.obj [("myOptionalString",
      JsVal.str "String optional | An optional string field")]) =
      Except.ok (ZType.zobject [("myOptionalString", ZType.zdescribe
        (ZType.znullable (ZType.zoptional ZType.zstring))
        "An optional string field")]) := by
    simp only [convertToZod, hc1, Bool.false_eq_true, if_false, hcf]
  have hzj : zodToJSONSchema (ZType.zobject [("myOptionalString", ZType.zdescribe
      (ZType.znullable (ZType.zoptional ZType.zstring))
      "An optional string field")]) = docW := by
    rw [zodToJSONSchema, zodFieldsToJSON, zodToJSONSchema, zodFieldsToJSON]
    simp [zodRequiredKeys, zIsOptionalQ, setDescription, zodToJSONSchema]
  have hcompileW : createJSONSchemaE (JsVal.obj fsW) = Except.ok docW := by
    show createJSONSchemaE (JsVal.obj [("myOptionalString",
      JsVal.str "String optional | An optional string field")]) = Except.ok docW
    rw [createJSONSchemaE, hcz]
    show Except.ok (zodToJSONSchema (ZType.zobject [("myOptionalString",
      ZType.zdescribe (ZType.znullable (ZType.zoptional ZType.zstring))
      "An optional string field")])) = Except.ok docW
    rw [hzj]
  refine ⟨⟨by decide, rfl, rfl, hcompileW⟩, ?_⟩
  exact optional_string_field_schema fsW "myOptionalString" "An optional string field"
    docW (by decide) rfl rfl (by decide) (by decide) (by decide) hcompileW

end AiTask
